import Mathlib

/-!
Verification of the extractor dispatch and content-normalization pipeline
of the `ogtool-assesment` repository (a Python content-extraction tool).

The development shallowly embeds the Python source:

* pure string manipulation (`str.lower`, `in`, `startswith`, `endswith`,
  `strip`, `split`) is modelled over `String`/`List Char`;
* `urllib.parse.urlparse` is modelled after CPython's `urlsplit`, including
  the removal of tab/CR/LF bytes, the WHATWG control-character strip and the
  "Invalid IPv6 URL" `ValueError` for unmatched brackets in the authority;
* network and filesystem effects (HTTP fetches, file reads, `gdown`
  downloads, `PyPDF2` parsing, `BeautifulSoup` queries) are environment
  oracles: each extractor model takes a structure of oracle results and the
  extractor's own control flow is translated literally;
* Python exceptions are `Except PyErr`; a `try/except` in the source becomes
  a `match` on the embedded `Except` value;
* `uuid.uuid5(NAMESPACE_URL, text)` is a deterministic name-based hash of
  `text`; it is modelled as an injective encoding of the name string
  (hash collisions are treated as absent), so the development tracks which
  name string each record id is derived from.
-/

/-- Python exception values that the modelled code can raise. -/
inductive PyErr where
  /-- `ValueError`, with the message. -/
  | valueError (msg : String)
  /-- `TypeError` (e.g. calling a function with the wrong number of arguments). -/
  | typeError (msg : String)
  deriving DecidableEq, Repr

/-! ## Python string primitives -/

/-- Python `needle in hay` on strings: substring containment. -/
def pyIn (needle hay : String) : Bool :=
  decide (needle.data <:+: hay.data)

/-- Python `s.startswith(prefix)`. -/
def pyStartsWith (s pre : String) : Bool :=
  decide (pre.data <+: s.data)

/-- Python `s.endswith(suffix)`. -/
def pyEndsWith (s suf : String) : Bool :=
  decide (suf.data <:+ s.data)

/-- Python `c.lower()` on a single character (ASCII, as in `bytes.lower`;
the sources only compare ASCII domain names and suffixes). -/
def pyCharLower (c : Char) : Char :=
  if 'A' ≤ c ∧ c ≤ 'Z' then Char.ofNat (c.toNat + 32) else c

/-- Python `s.lower()`. -/
def pyLower (s : String) : String :=
  String.mk (s.data.map pyCharLower)

/-- Python whitespace test (`str.strip` default / `\s` class), restricted to
the ASCII whitespace characters that occur in the modelled data. -/
def pyIsSpace (c : Char) : Bool :=
  c = ' ' ∨ c = '\t' ∨ c = '\n' ∨ c = '\r' ∨ c = '\x0b' ∨ c = '\x0c'

/-- Python `s.strip()` (no argument): remove leading and trailing whitespace. -/
def pyStrip (s : String) : String :=
  String.mk (((s.data.dropWhile pyIsSpace).reverse.dropWhile pyIsSpace).reverse)

/-- Python `s.strip(chars)`: remove leading and trailing characters drawn
from `chars`. -/
def pyStripChars (s : String) (chars : List Char) : String :=
  String.mk (((s.data.dropWhile (chars.contains ·)).reverse.dropWhile
    (chars.contains ·)).reverse)

/-- Splitting accumulator: structural recursion over the characters so
that concrete inputs reduce definitionally. -/
def pySplitAux (sep : Char) : List Char → List Char → List (List Char)
  | [], acc => [acc.reverse]
  | c :: rest, acc =>
    if c = sep then acc.reverse :: pySplitAux sep rest []
    else pySplitAux sep rest (c :: acc)

/-- Python `s.split(sep)` for a one-character separator (splits on every
occurrence; `"".split(sep) == [""]`). -/
def pySplit (s : String) (sep : Char) : List String :=
  (pySplitAux sep s.data []).map String.mk

/-! ## `urllib.parse.urlparse` (CPython `urlsplit` + params split) -/

/-- The components of a parsed URL used by the sources
(`scheme`, `netloc`, `path`). -/
structure UrlParts where
  scheme : String
  netloc : String
  path : String
  deriving DecidableEq, Repr

/-- CPython `scheme_chars`: characters allowed in a URL scheme after the
initial letter. -/
def schemeChar (c : Char) : Bool :=
  c.isAlpha ∨ c.isDigit ∨ c = '+' ∨ c = '-' ∨ c = '.'

/-- CPython removes tab, carriage-return and line-feed bytes from the URL
before parsing (`_UNSAFE_URL_BYTES_TO_REMOVE`). -/
def removeUnsafeBytes (l : List Char) : List Char :=
  l.filter (fun c => ¬(c = '\t' ∨ c = '\r' ∨ c = '\n'))

/-- CPython strips WHATWG C0-control-or-space characters (code points 0–32)
from both ends of the URL before parsing. -/
def stripC0 (l : List Char) : List Char :=
  ((l.dropWhile (·.toNat ≤ 32)).reverse.dropWhile (·.toNat ≤ 32)).reverse

/-- Scheme detection of CPython `urlsplit`: if the URL has a `:` at
position `i > 0`, the first character is an ASCII letter and every
character before the `:` is a scheme character, the scheme is the lowered
prefix and the rest follows the `:`. -/
def splitScheme (l : List Char) : String × List Char :=
  match l.findIdx? (· = ':'), l with
  | some i, c :: _ =>
    if 0 < i ∧ c.isAlpha ∧ (l.take i).all schemeChar then
      (pyLower (String.mk (l.take i)), l.drop (i + 1))
    else ("", l)
  | _, _ => ("", l)

/-- `_splitnetloc`: the netloc runs from after `//` to the first of
`/`, `?`, `#`. Returns `(netloc, rest)`. -/
def splitNetloc (l : List Char) : List Char × List Char :=
  (l.takeWhile (fun c => ¬(c = '/' ∨ c = '?' ∨ c = '#')),
   l.dropWhile (fun c => ¬(c = '/' ∨ c = '?' ∨ c = '#')))

/-- Drop a fragment (`#...`, first occurrence) from the URL remainder. -/
def dropFragment (l : List Char) : List Char :=
  l.takeWhile (· ≠ '#')

/-- Drop a query (`?...`, first occurrence) from the URL remainder. -/
def dropQuery (l : List Char) : List Char :=
  l.takeWhile (· ≠ '?')

/-- `urlparse._splitparams`: if the last path segment contains `;`, the path
ends before the first `;` of that segment. -/
def splitParams (l : List Char) : List Char :=
  if l.contains ';' then
    let afterSlash := (l.reverse.takeWhile (· ≠ '/')).reverse
    if l.contains '/' then
      if afterSlash.contains ';' then
        l.take (l.length - afterSlash.length) ++ afterSlash.takeWhile (· ≠ ';')
      else l
    else l.takeWhile (· ≠ ';')
  else l

/-- The cleaned URL characters: WHATWG strip plus tab/CR/LF removal. -/
def cleanUrl (s : String) : List Char :=
  removeUnsafeBytes (stripC0 s.data)

/-- The URL remainder after scheme removal. -/
def schemeRest (l : List Char) : List Char :=
  (splitScheme l).2

/-- The netloc characters (valid when the remainder starts with `//`). -/
def netlocChars (l : List Char) : List Char :=
  (splitNetloc ((schemeRest l).drop 2)).1

/-- The URL remainder after the netloc. -/
def afterNetloc (l : List Char) : List Char :=
  (splitNetloc ((schemeRest l).drop 2)).2

/-- `urllib.parse.urlparse`, for the fields the sources read
(`scheme`, `netloc`, `path`).  Raises `ValueError("Invalid IPv6 URL")`
when the authority contains an unmatched square bracket, exactly as
CPython does. -/
def urlparse (s : String) : Except PyErr UrlParts :=
  if (schemeRest (cleanUrl s)).take 2 = ['/', '/'] then
    if ((netlocChars (cleanUrl s)).contains '[' ∧
          ¬ (netlocChars (cleanUrl s)).contains ']') ∨
       ((netlocChars (cleanUrl s)).contains ']' ∧
          ¬ (netlocChars (cleanUrl s)).contains '[') then
      .error (PyErr.valueError "Invalid IPv6 URL")
    else
      .ok { scheme := (splitScheme (cleanUrl s)).1
            netloc := String.mk (netlocChars (cleanUrl s))
            path := String.mk (splitParams (dropQuery (dropFragment
              (afterNetloc (cleanUrl s))))) }
  else
    .ok { scheme := (splitScheme (cleanUrl s)).1
          netloc := ""
          path := String.mk (splitParams (dropQuery (dropFragment
            (schemeRest (cleanUrl s))))) }

/-! ## Identity assignment (`generate_unique_id`, `uuid.uuid5`) -/

/-- `str(uuid.uuid5(uuid.NAMESPACE_URL, name))`: a deterministic name-based
UUID of `name`.  Modelled as an injective encoding of the name string: the
development tracks which name each id was derived from and treats SHA-1
collisions as absent. -/
def uuid5NamespaceUrl (name : String) : String :=
  "uuid5:" ++ name

/-- `content_extraction.utils.generate_unique_id(text)`:
`str(uuid.uuid5(uuid.NAMESPACE_URL, text))`. -/
def generate_unique_id (text : String) : String :=
  uuid5NamespaceUrl text

/-- Python `str(n)` for a non-negative integer: decimal digits, least
significant first, with an explicit fuel argument (structural recursion so
that concrete values reduce definitionally). -/
def pyDecimalRevAux : Nat → Nat → List Nat
  | _, 0 => []
  | 0, _ + 1 => []
  | fuel + 1, n + 1 => ((n + 1) % 10) :: pyDecimalRevAux fuel ((n + 1) / 10)

/-- Python `str(n)` / f-string interpolation of a non-negative integer. -/
def pyStrNat (n : Nat) : String :=
  if n = 0 then "0"
  else ((pyDecimalRevAux n n).reverse.map Nat.digitChar).asString

/-! ## The `ContentItem` data model (`content_extraction/base.py`) -/

/-- `ContentItem.__init__` field values (`tags or []`, `metadata or {}`
defaults applied; metadata is kept as an association list). -/
structure ContentItem where
  content_id : String
  title : String
  content : String
  source_url : Option String := none
  content_type : String := "article"
  author : Option String := none
  date_published : Option String := none
  tags : List String := []
  metadata : List (String × String) := []
  deriving DecidableEq, Repr

/-! ## `can_handle` predicates of the five extractors -/

/-- `GenericBlogExtractor.can_handle` (`extractors/blog.py`):
`source.startswith(("http://", "https://")) and not any([...])`. -/
def genericBlogCanHandle (source : String) : Bool :=
  (pyStartsWith source "http://" || pyStartsWith source "https://") &&
  !(pyIn "substack.com" (pyLower source) ||
    pyIn "drive.google.com" (pyLower source) ||
    pyIn "github.com" (pyLower source) ||
    pyEndsWith (pyLower source) ".pdf" ||
    pyEndsWith (pyLower source) ".md")

/-- `SubstackExtractor.can_handle` (`extractors/substack.py`):
`"substack.com" in source.lower()`. -/
def substackCanHandle (source : String) : Bool :=
  pyIn "substack.com" (pyLower source)

/-- `PDFExtractor.can_handle` (`extractors/pdf.py`): `.pdf` suffix or a
Google Drive link. -/
def pdfCanHandle (source : String) : Bool :=
  if pyEndsWith (pyLower source) ".pdf" then true
  else if pyIn "drive.google.com" (pyLower source) then true
  else false

/-- `GitHubExtractor.can_handle` (`extractors/github.py`): host is
`github.com`/`www.github.com` and the path has at least two segments.
`urlparse` can raise `ValueError`, which `can_handle` does not catch. -/
def githubCanHandle (source : String) : Except PyErr Bool :=
  match urlparse source with
  | .error e => .error e
  | .ok parsed =>
    .ok (decide (parsed.netloc = "github.com" ∨ parsed.netloc = "www.github.com") &&
      decide ((pySplit (pyStripChars parsed.path ['/']) '/').length ≥ 2))

/-- `MarkdownExtractor.can_handle` (`extractors/markdown.py`): a local file
ending in `.md` (`os.path.isfile` is the filesystem oracle `isfile`), or an
http(s) URL whose path ends in `.md`.  The `urlparse` call can raise. -/
def markdownCanHandle (isfile : String → Bool) (source : String) :
    Except PyErr Bool :=
  if isfile source && pyEndsWith (pyLower source) ".md" then
    .ok true
  else
    match urlparse source with
    | .error e => .error e
    | .ok parsed =>
      .ok (decide (parsed.scheme = "http" ∨ parsed.scheme = "https") &&
        pyEndsWith (pyLower parsed.path) ".md")

/-! ## BeautifulSoup abstraction for date extraction (`utils.py`, `blog.py`)

A parsed HTML document is abstracted by the results of the queries the
sources perform: the first `<time>` element, the document-order `<meta>`
tags, a `select_one` oracle for CSS selectors, and the JSON-LD scripts. -/

/-- An HTML element as the sources observe it: an optional `datetime`
attribute and its stripped text. -/
structure DateElem where
  datetime : Option String
  text : String
  deriving DecidableEq, Repr

/-- A `<meta>` tag: `meta.get('property', '')`, `meta.get('name', '')`,
`meta.get('content')`. -/
structure MetaTag where
  property : String
  name : String
  content : Option String
  deriving DecidableEq, Repr

/-- A `<script type="application/ld+json">` block, abstracted by the outcome
of `json.loads` + `dict` check: `none` when parsing fails or the payload is
not a dict, otherwise the optional `datePublished` value. -/
def JsonLdScript := Option (Option String)

/-- The soup queries used by the two date-extraction functions. -/
structure DateSoup where
  /-- `soup.find('time')`: the first `<time>` element, if any. -/
  timeTag : Option DateElem
  /-- `soup.find_all('meta')` in document order. -/
  metas : List MetaTag
  /-- `soup.select_one(selector)` for a CSS selector string. -/
  selectOne : String → Option DateElem
  /-- JSON-LD scripts in document order. -/
  jsonLd : List JsonLdScript

/-- The `<time>` step shared by both functions: prefer the `datetime`
attribute, else the stripped inner text. -/
def timeTagDate (soup : DateSoup) : Option String :=
  match soup.timeTag with
  | none => none
  | some t =>
    match t.datetime with
    | some d => some d
    | none => some t.text

/-- The meta-tag loop of `utils.extract_date_published`: the first `<meta>`
whose `property` or `name` contains `publish` or `date` and whose `content`
is truthy (present and non-empty). -/
def metaPublishDate : List MetaTag → Option String
  | [] => none
  | m :: rest =>
    if pyIn "publish" m.property || pyIn "publish" m.name ||
       pyIn "date" m.property || pyIn "date" m.name then
      match m.content with
      | some c => if c ≠ "" then some c else metaPublishDate rest
      | none => metaPublishDate rest
    else metaPublishDate rest

/-- The selector loop shared by both functions: the first selector with a
hit; prefer its `datetime` attribute, else its stripped text. -/
def selectorDate (soup : DateSoup) : List String → Option String
  | [] => none
  | sel :: rest =>
    match soup.selectOne sel with
    | some e =>
      match e.datetime with
      | some d => some d
      | none => some e.text
    | none => selectorDate soup rest

/-- The JSON-LD loop of `utils.extract_date_published`: the first script
that parses to a dict with a truthy `datePublished`. -/
def jsonLdDate : List JsonLdScript → Option String
  | [] => none
  | script :: rest =>
    match script with
    | some (some d) => if d ≠ "" then some d else jsonLdDate rest
    | _ => jsonLdDate rest

/-- `soup.find('meta', {'property': 'article:published_time'})` with a
truthy `content`, derived from the same document-order meta list. -/
def metaArticlePublishedTime (metas : List MetaTag) : Option String :=
  match metas.find? (fun m => m.property = "article:published_time") with
  | some m =>
    match m.content with
    | some c => if c ≠ "" then some c else none
    | none => none
  | none => none

/-- The selector list of `utils.extract_date_published`. -/
def utilsDateSelectors : List String :=
  ["[itemprop=\x22datePublished\x22]", ".published", ".post-date",
   ".entry-date", ".date"]

/-- `content_extraction.utils.extract_date_published` (lines 300–361):
`<time>` → meta tags containing `publish`/`date` → common date selectors →
JSON-LD `datePublished` → `meta property="article:published_time"` → `None`.
The guard `if not html: return None` is the caller's concern; the model
starts from the parsed soup. -/
def extract_date_published (soup : DateSoup) : Option String :=
  match timeTagDate soup with
  | some d => some d
  | none =>
    match metaPublishDate soup.metas with
    | some d => some d
    | none =>
      match selectorDate soup utilsDateSelectors with
      | some d => some d
      | none =>
        match jsonLdDate soup.jsonLd with
        | some d => some d
        | none => metaArticlePublishedTime soup.metas

/-- The selector list of `GenericBlogExtractor._extract_date_published`. -/
def blogDateSelectors : List String :=
  ["[itemprop=\x22datePublished\x22]", ".published", ".post-date",
   ".entry-date", ".date", ".timestamp", ".post-timestamp"]

/-- The meta-property loop of `GenericBlogExtractor._extract_date_published`:
the first of three specific `property` values whose tag exists with truthy
content (`soup.find('meta', {'property': prop})`). -/
def blogMetaDate (metas : List MetaTag) : List String → Option String
  | [] => none
  | prop :: rest =>
    match metas.find? (fun m => m.property = prop) with
    | some m =>
      match m.content with
      | some c => if c ≠ "" then some c else blogMetaDate metas rest
      | none => blogMetaDate metas rest
    | none => blogMetaDate metas rest

/-- `GenericBlogExtractor._extract_date_published` (`blog.py` lines 244–270):
`<time>` → date-class selectors → three specific meta properties → `None`. -/
def blogExtractDatePublished (soup : DateSoup) : Option String :=
  match timeTagDate soup with
  | some d => some d
  | none =>
    match selectorDate soup blogDateSelectors with
    | some d => some d
    | none =>
      blogMetaDate soup.metas
        ["article:published_time", "published_time", "publication_date"]

/-- Modelled from the spec: the date-resolution priority the specification
describes (`<time datetime>` → `<time>` text → date-class selectors → meta
tags matching `publish`/`date` → JSON-LD `datePublished` → absent), used
only to compare against the functions translated from the code. -/
def specDateResolution (soup : DateSoup) : Option String :=
  match timeTagDate soup with
  | some d => some d
  | none =>
    match selectorDate soup utilsDateSelectors with
    | some d => some d
    | none =>
      match metaPublishDate soup.metas with
      | some d => some d
      | none => jsonLdDate soup.jsonLd

/-! ## `GenericBlogExtractor` (`extractors/blog.py`) -/

/-- The soup queries `GenericBlogExtractor` performs on a fetched page,
plus the library conversions it delegates (`html2text`).  `titleString` is
`soup.title.string` (present only when the `<title>` tag exists and has a
single string child); `mainContentHtml` abstracts the outcome of
`_extract_main_content` (a pure, deterministic function of the HTML that is
all BeautifulSoup tree traversal); `htmlToMd` is the `html2text` library
conversion. -/
structure BlogDoc where
  titleString : Option String
  h1Text : Option String
  headerHText : Option String
  mainContentHtml : String
  htmlToMd : String → String
  dateSoup : DateSoup
  authorResult : Option String
  extractionTimestamp : String

/-- `re.sub(r'\s*[|–-].*$', '', title)` for a single-line title: delete
from the first `|`, `–` or `-` (together with the whitespace run
immediately before it) to the end. -/
def stripSiteSuffix (title : String) : String :=
  match title.data.findIdx? (fun c => c = '|' ∨ c = '–' ∨ c = '-') with
  | none => title
  | some i =>
    String.mk (((title.data.take i).reverse.dropWhile pyIsSpace).reverse)

/-- `GenericBlogExtractor._extract_title` (`blog.py` lines 157–179):
document title stripped of a trailing site name, else `<h1>` text, else a
heading inside `<header>`, else the empty string. -/
def blogExtractTitle (doc : BlogDoc) : String :=
  match doc.titleString with
  | some t => stripSiteSuffix (pyStrip t)
  | none =>
    match doc.h1Text with
    | some t => t
    | none =>
      match doc.headerHText with
      | some t => t
      | none => ""

/-- The markdown cleanup `re.sub(r'\n{3,}', '\n\n', text)`: collapse runs
of three or more newlines to exactly two.  Implemented over the character
list with a run counter. -/
def collapseNewlinesAux : List Char → Nat → List Char
  | [], _ => []
  | '\n' :: rest, run =>
    if run ≥ 2 then collapseNewlinesAux rest (run + 1)
    else '\n' :: collapseNewlinesAux rest (run + 1)
  | c :: rest, _ => c :: collapseNewlinesAux rest 0

/-- `re.sub(r'\n{3,}', '\n\n', text)`. -/
def collapseNewlines (s : String) : String :=
  String.mk (collapseNewlinesAux s.data 0)

/-- `GenericBlogExtractor._html_to_markdown`: library conversion followed by
newline collapsing. -/
def blogHtmlToMarkdown (doc : BlogDoc) (html : String) : String :=
  collapseNewlines (doc.htmlToMd html)

/-- `GenericBlogExtractor._process_page` (`blog.py` lines 112–155): extract
title (default `"Untitled Article"` when falsy), locate main content,
convert to markdown, read metadata, and emit exactly one record with
`content_id = uuid5(NAMESPACE_URL, url + title)`.  There is no
content-length check in this function. -/
def blogProcessPage (url : String) (doc : BlogDoc) : List ContentItem :=
  let title := blogExtractTitle doc
  let title := if title = "" then "Untitled Article" else title
  let markdownContent := blogHtmlToMarkdown doc doc.mainContentHtml
  let author := doc.authorResult
  let datePublished := blogExtractDatePublished doc.dateSoup
  let contentId := uuid5NamespaceUrl (url ++ title)
  [{ content_id := contentId
     title := title
     content := markdownContent
     source_url := some url
     content_type := "article"
     author := author
     date_published := datePublished
     metadata := [("extracted_from", "generic_blog"),
                  ("extraction_timestamp", doc.extractionTimestamp)] }]

/-- The network oracle for the blog extractor: `_fetch_url` returns the
parsed page (abstracted as a `BlogDoc`) or `none` on any request failure. -/
def BlogEnv := String → Option BlogDoc

/-- `GenericBlogExtractor.extract` (`blog.py` lines 74–100): fetch, then
process; any failure yields `[]`. -/
def blogExtract (env : BlogEnv) (url : String) : List ContentItem :=
  match env url with
  | none => []
  | some doc => blogProcessPage url doc

/-! ## `MarkdownExtractor` (`extractors/markdown.py`) -/

/-- Filesystem/network oracles for the markdown extractor: `os.path.isfile`,
`open(...).read()` (`none` on any read failure) and `requests.get` text
(`none` on any request failure). -/
structure MarkdownEnv where
  isfile : String → Bool
  readFile : String → Option String
  httpGet : String → Option String

/-- `MarkdownExtractor._load_content`: local file read when
`os.path.isfile`, else HTTP GET for http(s) sources, else `None`. -/
def markdownLoadContent (env : MarkdownEnv) (source : String) : Option String :=
  if env.isfile source then env.readFile source
  else if pyStartsWith source "http://" || pyStartsWith source "https://" then
    env.httpGet source
  else none

/-- First match of the default title pattern `^# (.+)$` (`re.MULTILINE`):
the first line starting with `"# "` followed by at least one character;
the raw capture group is the rest of that line. -/
def mdHeadingMatch : List String → Option String
  | [] => none
  | line :: rest =>
    if pyStartsWith line "# " && line.length > 2 then
      some (String.mk (line.data.drop 2))
    else mdHeadingMatch rest

/-- First match of the default title pattern `^(.+)\n=+\s*$`
(`re.MULTILINE`): a non-empty line followed by a line of one or more `=`
and then only whitespace; the raw capture group is the underlined line. -/
def mdUnderlineMatch : List String → Option String
  | l1 :: l2 :: rest =>
    if l1 ≠ "" && (l2.data.takeWhile (· = '=')).length ≥ 1 &&
       (l2.data.dropWhile (· = '=')).all pyIsSpace then
      some l1
    else mdUnderlineMatch (l2 :: rest)
  | _ => none

/-- `pathlib.PurePosixPath(...).name`: the last path component, ignoring
trailing slashes and `.` components. -/
def pathName (s : String) : String :=
  (((pySplit s '/').filter (fun p => p ≠ "" && p ≠ ".")).getLast?).getD ""

/-- `pathlib.PurePosixPath(...).stem`: the name without its suffix; the
suffix starts at the last `.` when that dot is neither the first nor the
last character of the name. -/
def pathStem (s : String) : String :=
  match (pathName s).data.reverse.findIdx? (· = '.') with
  | none => pathName s
  | some rj =>
    if 0 < (pathName s).length - 1 - rj ∧
       (pathName s).length - 1 - rj < (pathName s).length - 1 then
      String.mk ((pathName s).data.take ((pathName s).length - 1 - rj))
    else pathName s

/-- `MarkdownExtractor._extract_title` (`markdown.py` lines 135–162): try
the two default title patterns in order (returning the stripped capture
group, which can be empty when the heading text is all whitespace), then
fall back to the filename stem for local files, the URL basename stem for
http(s) sources, else a fixed default.  The URL branch calls `urlparse`,
which can raise. -/
def markdownExtractTitle (isfile : String → Bool) (content source : String) :
    Except PyErr String :=
  match mdHeadingMatch (pySplit content '\n' ) with
  | some m => .ok (pyStrip m)
  | none =>
    match mdUnderlineMatch (pySplit content '\n' ) with
    | some m => .ok (pyStrip m)
    | none =>
      if isfile source then
        .ok (pathStem source)
      else if pyStartsWith source "http://" || pyStartsWith source "https://" then
        match urlparse source with
        | .error e => .error e
        | .ok parsed =>
          let path := pyStripChars parsed.path ['/']
          .ok (pathStem (((pySplit path '/').getLast?).getD ""))
      else
        .ok "Untitled Markdown Document"

/-- `MarkdownExtractor.extract` (`markdown.py` lines 65–105): load content,
extract a title, and emit one record whose id is
`generate_unique_id(title)`; any failure (including an exception from
`_extract_title`) yields `[]`. -/
def markdownExtract (env : MarkdownEnv) (source : String) : List ContentItem :=
  match markdownLoadContent env source with
  | none => []
  | some content =>
    match markdownExtractTitle env.isfile content source with
    | .error _ => []
    | .ok title =>
      let isUrl := pyStartsWith source "http://" || pyStartsWith source "https://"
      [{ content_id := generate_unique_id title
         title := title
         content := content
         source_url := if isUrl then some source else none
         content_type := "documentation"
         metadata := (if isUrl then [] else [("file_path", source)]) ++
                     [("format", "markdown")] }]

/-! ## `SubstackExtractor` (`extractors/substack.py`) -/

/-- The per-post queries of `_process_post`, abstracted from the fetched
HTML: `utils.extract_title`, `utils.extract_main_content` (with the
Substack selector list), `utils.html_to_markdown_text` of that content,
`utils.extract_author` and `utils.extract_date_published`. -/
structure SubstackPostDoc where
  title : String
  mainContentHtml : String
  markdown : String
  author : Option String
  datePublished : Option String

/-- The landing-page queries of `SubstackExtractor.extract`:
`_find_main_author` and the first `<a href>` containing `/archive`. -/
structure SubstackMainDoc where
  mainAuthor : Option String
  archiveHref : Option String

/-- Network oracles for the Substack extractor. -/
structure SubstackEnv where
  fetchMain : String → Option SubstackMainDoc
  postLinks : String → List String
  fetchPost : String → Option SubstackPostDoc

/-- The call `generate_unique_id()` at `substack.py` line 234:
`generate_unique_id` requires one positional argument (`text`), so calling
it with no arguments raises `TypeError` before any value is produced. -/
def callGenerateUniqueIdNoArgs : Except PyErr String :=
  .error (.typeError
    "generate_unique_id() missing 1 required positional argument: \x27text\x27")

/-- The body of `SubstackExtractor._process_post` (`substack.py` lines
190–247) before its `except` handler: fetch, check the title (default
`"Untitled Post"`), require main content and markdown of at least 100
characters, then build the record — whose id is produced by the no-argument
call to `generate_unique_id`, so the body always stops with `TypeError`
when it reaches that point. -/
def substackProcessPostBody (env : SubstackEnv) (url : String) :
    Except PyErr (List ContentItem) :=
  match env.fetchPost url with
  | none => .ok []
  | some doc =>
    let title := if doc.title = "" then "Untitled Post" else doc.title
    if doc.mainContentHtml = "" || doc.mainContentHtml.length < 100 then
      .ok []
    else if doc.markdown = "" || doc.markdown.length < 100 then
      .ok []
    else
      match callGenerateUniqueIdNoArgs with
      | .error e => .error e
      | .ok contentId =>
        .ok [{ content_id := contentId
               title := title
               content := doc.markdown
               source_url := some url
               content_type := "newsletter"
               author := doc.author
               date_published := doc.datePublished }]

/-- `SubstackExtractor._process_post`: the body with its
`except Exception` handler, which returns `[]`. -/
def substackProcessPost (env : SubstackEnv) (url : String) : List ContentItem :=
  match substackProcessPostBody env url with
  | .ok items => items
  | .error _ => []

/-- Python `s.rstrip('/')`. -/
def pyRStripSlash (s : String) : String :=
  String.mk ((s.data.reverse.dropWhile (· = '/')).reverse)

/-- Absolutization of the archive link in `SubstackExtractor.extract`
(lines 79–89). -/
def substackArchiveLink (url : String) (href : Option String) : String :=
  match href with
  | none => url
  | some l =>
    if pyStartsWith l "http" then l
    else if pyStartsWith l "/" then pyRStripSlash url ++ l
    else pyRStripSlash url ++ "/" ++ l

/-- The per-post loop of `SubstackExtractor.extract` (lines 102–117): each
post is processed (its own failures already yield `[]`), then filtered by
the main author when one was identified. -/
def substackPostLoop (env : SubstackEnv) (mainAuthor : Option String) :
    List String → List ContentItem
  | [] => []
  | link :: rest =>
    let items := substackProcessPost env link
    let items :=
      match mainAuthor with
      | some a =>
        if items ≠ [] then
          items.filter (fun item =>
            item.author = none ∨ item.author = some "" ∨ item.author = some a)
        else items
      | none => items
    items ++ substackPostLoop env mainAuthor rest

/-- `SubstackExtractor.extract` (`substack.py` lines 52–123): fetch the
landing page, locate the archive, collect post links and process each. -/
def substackExtract (env : SubstackEnv) (url : String) : List ContentItem :=
  match env.fetchMain url with
  | none => []
  | some mainDoc =>
    let archive := substackArchiveLink url mainDoc.archiveHref
    match env.postLinks archive with
    | [] => []
    | links => substackPostLoop env mainDoc.mainAuthor links

/-! ## `PDFExtractor` (`extractors/pdf.py`) -/

/-- The outcome of a successful `PyPDF2.PdfReader` parse: the page texts
(`page.extract_text()` per page) and the metadata title. -/
structure PdfData where
  pages : List String
  metaTitle : Option String

/-- Oracles for the PDF extractor.  Downloads and parses are keyed by file
id / URL / byte content; `identifyChapters` abstracts
`_identify_chapters` (the configurable chapter-regex family applied to the
full text, yielding `(chapter_title, chapter_content)` pairs where the
title is already formatted `"Chapter N: Title"`). -/
structure PdfEnv where
  /-- `gdown.download(id=file_id, ...)`: resulting file bytes, `none` when
  the call raised or produced no file. -/
  gdown1 : String → Option (List Nat)
  /-- `gdown.download(url, ..., fuzzy=True)`: resulting file bytes. -/
  gdown2 : String → Option (List Nat)
  /-- `PyPDF2.PdfReader` on the file bytes: `none` when parsing raises. -/
  parse : List Nat → Option PdfData
  /-- `os.path.exists` for local paths. -/
  pathExists : String → Bool
  /-- Bytes of a local file. -/
  localBytes : String → List Nat
  /-- The temporary download path `gdrive_pdf_<uuid4-fragment>.pdf`. -/
  tempPath : String
  /-- `_identify_chapters` on the concatenated text. -/
  identifyChapters : String → List (String × String)

/-- A character of the `[a-zA-Z0-9_-]` class used by the Google Drive
file-id patterns. -/
def idChar (c : Char) : Bool :=
  (c.isAlpha ∧ c.toNat < 128) ∨ c.isDigit ∨ c = '_' ∨ c = '-'

/-- `re.search` of `lit + ([a-zA-Z0-9_-]+)` where `lit` is one of a list of
literal alternatives (single-character class alternatives in the source
patterns): the capture at the leftmost position where some literal is
followed by at least one class character. -/
def findCapture (lits : List (List Char)) : List Char → Option (List Char)
  | [] => none
  | c :: rest =>
    match lits.findSome? (fun lit =>
      if lit <+: (c :: rest) ∧ ((c :: rest).drop lit.length).takeWhile idChar ≠ []
      then some (((c :: rest).drop lit.length).takeWhile idChar)
      else none) with
    | some cap => some cap
    | none => findCapture lits rest

/-- `PDFExtractor._extract_google_drive_file_id` (`pdf.py` lines 172–189):
the three URL shapes tried in order. -/
def extractGoogleDriveFileId (url : String) : Option String :=
  match findCapture ["/file/d/".data] url.data with
  | some cap => some (String.mk cap)
  | none =>
    match findCapture ["?id=".data, "&id=".data] url.data with
    | some cap => some (String.mk cap)
    | none =>
      match findCapture ["/document/d/".data] url.data with
      | some cap => some (String.mk cap)
      | none => none

/-- The `%PDF-` magic number as bytes. -/
def pdfMagic : List Nat := [0x25, 0x50, 0x44, 0x46, 0x2D]

/-- `bytes.lower()` on one byte (ASCII). -/
def byteLower (b : Nat) : Nat :=
  if 65 ≤ b ∧ b ≤ 90 then b + 32 else b

/-- `b'<html'`. -/
def htmlOpenBytes : List Nat := [60, 104, 116, 109, 108]

/-- `b'<!doctype'`. -/
def doctypeBytes : List Nat := [60, 33, 100, 111, 99, 116, 121, 112, 101]

/-- `PDFExtractor._is_valid_pdf` (`pdf.py` lines 191–232) on the file's
bytes: at least 100 bytes, the first 8 bytes start with `%PDF-`, and then a
`PyPDF2` structural check — a parse with at least one page is valid, a
parse with zero pages is not, and a parse that raises is still accepted
because the magic number was present. -/
def isValidPdf (bytes : List Nat) (parse : Option PdfData) : Bool :=
  if bytes.length < 100 then false
  else if ¬ (pdfMagic <+: bytes.take 8) then false
  else
    match parse with
    | some d => d.pages.length > 0
    | none => true

/-- The failure cases of `_download_from_google_drive`, one per distinct
diagnostic the source logs. -/
inductive DriveFailure where
  /-- No file id could be extracted from the URL. -/
  | noFileId
  /-- Both `gdown` methods failed to produce a non-empty file. -/
  | downloadFailed
  /-- The downloaded file failed PDF validation and its first 100 bytes
  (lowercased) contain `<html` or `<!doctype`: reported as a Google Drive
  HTML access page. -/
  | invalidHtmlPage
  /-- The downloaded file failed PDF validation for any other reason
  (wrong magic number, too small / truncated, zero pages). -/
  | invalidOther
  deriving DecidableEq, Repr

/-- The diagnostic branch of `_download_from_google_drive` (`pdf.py` lines
144–159): when validation fails, sniff the lowered first 100 bytes for
`<html`/`<!doctype` and report the Google-Drive-HTML-page reason, else the
generic invalid-PDF reason. -/
def driveInvalidReason (bytes : List Nat) : DriveFailure :=
  let first100 := (bytes.take 100).map byteLower
  if decide (htmlOpenBytes <:+: first100) ||
     decide (doctypeBytes <:+: first100) then
    .invalidHtmlPage
  else
    .invalidOther

/-- `PDFExtractor._download_from_google_drive` (`pdf.py` lines 84–170).
On failure the result carries the failure reason and whether the temporary
file was removed (`os.remove` runs only in the invalid-PDF branch). -/
def downloadFromGoogleDrive (env : PdfEnv) (url : String) :
    Except (DriveFailure × Bool) (List Nat) :=
  match extractGoogleDriveFileId url with
  | none => .error (.noFileId, false)
  | some fid =>
    let method1 :=
      match env.gdown1 fid with
      | some b => if b.length > 0 then some b else none
      | none => none
    let downloaded :=
      match method1 with
      | some b => some b
      | none =>
        match env.gdown2 url with
        | some b => if b.length > 0 then some b else none
        | none => none
    match downloaded with
    | none => .error (.downloadFailed, false)
    | some bytes =>
      if ¬ isValidPdf bytes (env.parse bytes) then
        .error (driveInvalidReason bytes, true)
      else
        .ok bytes

/-- `os.path.basename`. -/
def pyBasename (s : String) : String :=
  String.mk ((s.data.reverse.takeWhile (· ≠ '/')).reverse)

/-- The first-page title heuristic of `_extract_pdf_title`: the first line
of page 1 whose stripped text is non-empty and shorter than 100
characters. -/
def firstShortLine (pages : List String) : Option String :=
  match pages with
  | [] => none
  | p :: _ =>
    (pySplit p '\n').findSome? (fun line =>
      let t := pyStrip line
      if t ≠ "" ∧ t.length < 100 then some t else none)

/-- `PDFExtractor._extract_pdf_title` (`pdf.py` lines 321–338): metadata
title when truthy, else the first short non-empty line of page 1. -/
def extractPdfTitle (d : PdfData) : Option String :=
  match d.metaTitle with
  | some t => if t ≠ "" then some t else firstShortLine d.pages
  | none => firstShortLine d.pages

/-- `full_text`: `page.extract_text() + "\n\n"` concatenated over all
pages. -/
def pdfFullText (pages : List String) : String :=
  pages.foldl (fun acc p => acc ++ p ++ "\n\n") ""

/-- The chapter loop of `_extract_from_pdf` (`pdf.py` lines 273–295): one
record per chapter with `content_id = uuid5(NAMESPACE_URL,
f"{source_url or pdf_path}#{idx}")` and title
`f"{title} - {chapter_title}"`, stopping after `max_chapters` items when
that cap is positive. -/
def pdfChapterItems (key docTitle : String) (sourceUrl : Option String)
    (pdfPath : String) (useLocalPath : Bool) (maxChapters total : Nat) :
    List (String × String) → Nat → List ContentItem
  | [], _ => []
  | (chapTitle, chapContent) :: rest, idx =>
    let item : ContentItem :=
      { content_id := uuid5NamespaceUrl (key ++ "#" ++ pyStrNat idx)
        title := docTitle ++ " - " ++ chapTitle
        content := pyStrip chapContent
        source_url := sourceUrl
        content_type := "book_chapter"
        metadata := (if useLocalPath then [("pdf_path", pdfPath)] else []) ++
          [("chapter_index", pyStrNat idx), ("total_chapters", pyStrNat total),
           ("parent_document", docTitle)] }
    if maxChapters > 0 ∧ idx + 1 ≥ maxChapters then [item]
    else item :: pdfChapterItems key docTitle sourceUrl pdfPath useLocalPath
      maxChapters total rest (idx + 1)

/-- `PDFExtractor._extract_from_pdf` (`pdf.py` lines 234–313): parse, build
the full text, resolve a document title (metadata → first short line →
`os.path.basename`), then either one record per identified chapter or a
single whole-document record whose id is `uuid5(NAMESPACE_URL,
source_url or pdf_path)`.  A parse failure is caught and yields `[]`. -/
def extractFromPdf (env : PdfEnv) (maxChapters : Nat) (bytes : List Nat)
    (pdfPath : String) (sourceUrl : Option String) : List ContentItem :=
  match env.parse bytes with
  | none => []
  | some d =>
    let fullText := pdfFullText d.pages
    let title := (extractPdfTitle d).getD (pyBasename pdfPath)
    let key := match sourceUrl with
               | some u => if u ≠ "" then u else pdfPath
               | none => pdfPath
    let useLocalPath := match sourceUrl with
                        | some u => u = ""
                        | none => true
    let chapters := env.identifyChapters fullText
    match chapters with
    | [] =>
      [{ content_id := uuid5NamespaceUrl key
         title := title
         content := pyStrip fullText
         source_url := sourceUrl
         content_type := "book_chapter"
         metadata := (if useLocalPath then [("pdf_path", pdfPath)] else []) ++
           [("page_count", pyStrNat d.pages.length)] }]
    | chs =>
      pdfChapterItems key title sourceUrl pdfPath useLocalPath maxChapters
        chs.length chs 0

/-- `PDFExtractor.extract` (`pdf.py` lines 56–82), returning the extracted
records together with a flag recording whether the text-extraction stage
(`_extract_from_pdf`) was reached. -/
def pdfExtract (env : PdfEnv) (maxChapters : Nat) (source : String) :
    List ContentItem × Bool :=
  if pyIn "drive.google.com" (pyLower source) then
    match downloadFromGoogleDrive env source with
    | .error _ => ([], false)
    | .ok bytes =>
      (extractFromPdf env maxChapters bytes env.tempPath (some source), true)
  else
    if env.pathExists source then
      (extractFromPdf env maxChapters (env.localBytes source) source
        (some source), true)
    else ([], false)

/-! ## `GitHubExtractor` (`extractors/github.py`) -/

/-- `GitHubExtractor._extract_title_from_content` (`github.py` lines
250–262): scan stripped lines; a `# ` heading yields its stripped text,
otherwise the first non-empty non-`#` line shorter than 100 characters. -/
def extractTitleFromContent (content : String) : Option String :=
  (pySplit content '\n').findSome? (fun rawLine =>
    let line := pyStrip rawLine
    if pyStartsWith line "# " then some (pyStrip (String.mk (line.data.drop 2)))
    else if line ≠ "" ∧ ¬ pyStartsWith line "#" ∧ line.length < 100 then
      some line
    else none)

/-- A file listed by `repos/{owner}/{repo}/contents/{dir}`: its name,
whether it is a regular file, and the outcome of fetching it
(`none`: the per-file request raised, aborting the directory;
`some none`: missing/undecodable base64 content, file skipped;
`some (some c)`: decoded content `c`).  `htmlUrl` and `path` are the
response fields stored in the record metadata. -/
structure GhFile where
  name : String
  isFile : Bool
  fetched : Option (Option String)
  htmlUrl : String
  path : String

/-- GitHub API oracles, keyed by owner and repository. -/
structure GitHubEnv where
  /-- `repos/{owner}/{repo}/readme`: `none` on 404 or request/processing
  failure, else the decoded README content and file name. -/
  readme : String → String → Option (String × String)
  /-- `repos/{owner}/{repo}/contents/{dir}` for `docs`, `documentation`,
  `doc` in that order: `none` on 404 or request failure. -/
  docDir : String → String → String → Option (List GhFile)

/-- `GitHubExtractor._extract_readme` (`github.py` lines 101–143). -/
def githubExtractReadme (env : GitHubEnv) (owner repo : String) :
    List ContentItem :=
  match env.readme owner repo with
  | none => []
  | some (content, fileName) =>
    let title := (extractTitleFromContent content).getD (repo ++ " README")
    [{ content_id := generate_unique_id (owner ++ "/" ++ repo ++ "/README")
       title := title
       content := content
       source_url := some ("https://github.com/" ++ owner ++ "/" ++ repo)
       content_type := "documentation"
       metadata := [("github_owner", owner), ("github_repo", repo),
                    ("file_type", "README"), ("file_name", fileName)] }]

/-- The per-directory file loop of `_extract_docs` (`github.py` lines
166–209): skip non-files and non-matching extensions, stop at the
`max_files` cap, abort the directory when a per-file request raises, skip
undecodable files. -/
def githubDirItems (owner repo : String) (exts : List String)
    (maxFiles : Nat) : List GhFile → Nat → List ContentItem
  | [], _ => []
  | f :: rest, count =>
    if ¬ f.isFile then githubDirItems owner repo exts maxFiles rest count
    else if ¬ exts.any (fun e => pyEndsWith f.name e) then
      githubDirItems owner repo exts maxFiles rest count
    else if count ≥ maxFiles then []
    else
      match f.fetched with
      | none => []
      | some none => githubDirItems owner repo exts maxFiles rest count
      | some (some content) =>
        { content_id :=
            generate_unique_id (owner ++ "/" ++ repo ++ "/" ++ f.name)
          title := (extractTitleFromContent content).getD
            (repo ++ " - " ++ f.name)
          content := content
          source_url := some f.htmlUrl
          content_type := "documentation"
          metadata := [("github_owner", owner), ("github_repo", repo),
                       ("file_path", f.path), ("file_name", f.name)] } ::
        githubDirItems owner repo exts maxFiles rest (count + 1)

/-- `GitHubExtractor._extract_docs` (`github.py` lines 145–218): the three
conventional documentation directories, each contributing its processed
files (a missing directory contributes nothing). -/
def githubExtractDocs (env : GitHubEnv) (owner repo : String)
    (exts : List String) (maxFiles : Nat) : List ContentItem :=
  (["docs", "documentation", "doc"].map (fun dir =>
    match env.docDir owner repo dir with
    | none => []
    | some files => githubDirItems owner repo exts maxFiles files 0)).flatten

/-- `GitHubExtractor.extract` (`github.py` lines 53–99): parse the URL,
require at least owner and repo path segments, then README plus
documentation records; any escaping exception is caught and yields `[]`. -/
def githubExtract (env : GitHubEnv) (exts : List String) (maxFiles : Nat)
    (url : String) : List ContentItem :=
  match urlparse url with
  | .error _ => []
  | .ok parsed =>
    let pathParts := pySplit (pyStripChars parsed.path ['/']) '/' 
    if pathParts.length < 2 then []
    else
      githubExtractReadme env (pathParts.getD 0 "") (pathParts.getD 1 "") ++
      githubExtractDocs env (pathParts.getD 0 "") (pathParts.getD 1 "")
        exts maxFiles

/-- The default `file_extensions` configuration of `GitHubExtractor`. -/
def githubDefaultExts : List String := [".md", ".markdown", ".txt", ".rst"]

/-! ## `ExtractorManager` (`content_extraction/base.py` lines 155–241) -/

/-- A registered extractor as the manager sees it: the `can_handle`
predicate (which can raise — the manager does not guard it) and the
`extract` method (whose own `try/except` makes it total). -/
structure Extractor where
  canHandle : String → Except PyErr Bool
  extract : String → List ContentItem

/-- `ExtractorManager.extract` (`base.py` lines 223–241) together with the
run accumulator `self.items`: iterate the registered extractors in order;
the first whose `can_handle(source)` is true runs, its records are appended
to the accumulator and returned; if none matches, return `[]` with the
accumulator unchanged.  An exception from `can_handle` propagates. -/
def managerExtract (extractors : List Extractor) (source : String)
    (items : List ContentItem) :
    Except PyErr (List ContentItem × List ContentItem) :=
  match extractors with
  | [] => .ok ([], items)
  | e :: rest =>
    match e.canHandle source with
    | .error err => .error err
    | .ok true => .ok (e.extract source, items ++ e.extract source)
    | .ok false => managerExtract rest source items

/-- The oracle environments of all five extractors, fixed for one run. -/
structure PipelineEnv where
  blog : BlogEnv
  github : GitHubEnv
  markdown : MarkdownEnv
  pdf : PdfEnv
  substack : SubstackEnv

/-- The extractor list `TechContentExtractor._register_extractors` builds
(`tech_content_extractor.py` lines 36–71): one instance per module of
`content_extraction.extractors`, in module-name order
(`blog`, `github`, `markdown`, `pdf`, `substack`), with default
configuration. -/
def registeredPipeline (env : PipelineEnv) : List Extractor :=
  [{ canHandle := fun s => .ok (genericBlogCanHandle s)
     extract := blogExtract env.blog },
   { canHandle := githubCanHandle
     extract := githubExtract env.github githubDefaultExts 50 },
   { canHandle := markdownCanHandle env.markdown.isfile
     extract := markdownExtract env.markdown },
   { canHandle := fun s => .ok (pdfCanHandle s)
     extract := fun s => (pdfExtract env.pdf 0 s).1 },
   { canHandle := fun s => .ok (substackCanHandle s)
     extract := substackExtract env.substack }]

/-! ## Listing-vs-single classification (`content_ingestion.py` lines
639–654, `tech_knowledge_extractor.py` lines 366–394) -/

/-- The heuristic `article_count > 3 or link_count > 10` shared by
`ContentIngestion.process_source` and
`TechKnowledgeExtractor.process_generic_blog`. -/
def isListingPage (articleCount linkCount : Nat) : Bool :=
  decide (articleCount > 3) || decide (linkCount > 10)

/-- How a fetched non-Substack URL is routed. -/
inductive BlogRoute where
  /-- Expanded as a list page into its article links. -/
  | listing (links : List String)
  /-- Processed as one individual page. -/
  | singleArticle (url : String)
  deriving DecidableEq, Repr

/-- The routing branch of `process_source` / `process_generic_blog`: count
article-like elements and matching links on the fetched page, then either
expand the extracted list-page links or process the page itself. -/
def genericBlogRoute (articleCount linkCount : Nat) (listLinks : List String)
    (url : String) : BlogRoute :=
  if isListingPage articleCount linkCount then .listing listLinks
  else .singleArticle url

/-! ## Concrete environments for witnesses and counterexamples -/

/-- A date soup with no date signals at all. -/
def emptyDateSoup : DateSoup :=
  { timeTag := none, metas := [], selectOne := fun _ => none, jsonLd := [] }

/-- A network/filesystem environment where every fetch fails and every file
is absent (an offline run). -/
def offlinePipelineEnv : PipelineEnv :=
  { blog := fun _ => none
    github := { readme := fun _ _ => none, docDir := fun _ _ _ => none }
    markdown := { isfile := fun _ => false, readFile := fun _ => none,
                  httpGet := fun _ => none }
    pdf := { gdown1 := fun _ => none, gdown2 := fun _ => none,
             parse := fun _ => none, pathExists := fun _ => false,
             localBytes := fun _ => [], tempPath := "/tmp/gdrive_pdf_0a1b2c3d.pdf",
             identifyChapters := fun _ => [] }
    substack := { fetchMain := fun _ => none, postLinks := fun _ => [],
                  fetchPost := fun _ => none } }

/-- Stub records and extractors for the dispatch-precedence witness: two
registered extractors whose `can_handle` both accept every source. -/
def stubItemA : ContentItem :=
  { content_id := "id-a", title := "A", content := "content-a" }

/-- Second stub record. -/
def stubItemB : ContentItem :=
  { content_id := "id-b", title := "B", content := "content-b" }

/-- First-registered stub extractor (accepts everything, returns
`[stubItemA]`). -/
def stubExtractorA : Extractor :=
  { canHandle := fun _ => .ok true, extract := fun _ => [stubItemA] }

/-- Second-registered stub extractor (accepts everything, returns
`[stubItemB]`). -/
def stubExtractorB : Extractor :=
  { canHandle := fun _ => .ok true, extract := fun _ => [stubItemB] }

/-! ## Helper lemmas -/

/-- Two strings with the same character data are equal. -/
theorem stringDataEq {s t : String} (h : s.data = t.data) : s = t := by
  cases s; cases t; exact congrArg String.mk h

/-- Dispatch characterization: when every registered `can_handle` evaluates
without raising, `ExtractorManager.extract` returns exactly the output of
the first-registered matching extractor (or `[]`), appended to the
accumulator. -/
theorem managerExtract_first_match (extractors : List Extractor)
    (source : String) (items : List ContentItem)
    (h : ∀ e ∈ extractors, ∃ b, e.canHandle source = .ok b) :
    managerExtract extractors source items =
      .ok
        ((((extractors.find? (fun e =>
            match e.canHandle source with
            | .ok true => true
            | _ => false)).map (fun e => e.extract source)).getD []),
         items ++
          (((extractors.find? (fun e =>
            match e.canHandle source with
            | .ok true => true
            | _ => false)).map (fun e => e.extract source)).getD [])) := by
  induction extractors with
  | nil => simp [managerExtract]
  | cons e rest ih =>
    obtain ⟨b, hb⟩ := h e (List.mem_cons_self e rest)
    have hrest : ∀ x ∈ rest, ∃ c, x.canHandle source = .ok c :=
      fun x hx => h x (List.mem_cons_of_mem e hx)
    cases b with
    | true =>
      simp only [managerExtract, hb, List.find?_cons]
      rfl
    | false =>
      simp only [managerExtract, hb, List.find?_cons]
      exact ih hrest

/-- Every Substack post is processed to `[]`: the id-generation call in
`_process_post` raises `TypeError`, and the handler returns `[]`; the
earlier guards return `[]` directly. -/
theorem substackProcessPost_eq_nil (env : SubstackEnv) (url : String) :
    substackProcessPost env url = [] := by
  unfold substackProcessPost substackProcessPostBody
  cases env.fetchPost url with
  | none => rfl
  | some doc =>
    cases h1 : (decide (doc.mainContentHtml = "") ||
        decide (doc.mainContentHtml.length < 100)) with
    | true => simp [h1]
    | false =>
      cases h2 : (decide (doc.markdown = "") ||
          decide (doc.markdown.length < 100)) with
      | true => simp [h1, h2]
      | false => simp [h1, h2, callGenerateUniqueIdNoArgs]

/-- The post loop of `SubstackExtractor.extract` accumulates nothing. -/
theorem substackPostLoop_eq_nil (env : SubstackEnv) (a : Option String)
    (links : List String) : substackPostLoop env a links = [] := by
  induction links with
  | nil => rfl
  | cons l rest ih =>
    cases a <;> simp [substackPostLoop, substackProcessPost_eq_nil, ih]

/-- C3: For every Substack source URL, `SubstackExtractor.extract` returns
the empty list and can never emit a `ContentItem`: `_process_post` computes
the record id by calling `generate_unique_id()` with no argument although
`generate_unique_id` requires one positional `text` argument, so a
`TypeError` is raised before the `ContentItem` is constructed and the
surrounding handler returns the empty list for every post. -/
theorem C3_substack_extract_empty (env : SubstackEnv) (url : String) :
    substackExtract env url = [] ∧
    ∀ postUrl : String, substackProcessPost env postUrl = [] := by
  constructor
  · unfold substackExtract
    cases env.fetchMain url with
    | none => rfl
    | some mainDoc =>
      simp only []
      cases henv : env.postLinks (substackArchiveLink url mainDoc.archiveHref) with
      | nil => rfl
      | cons a b => simpa using substackPostLoop_eq_nil env mainDoc.mainAuthor (a :: b)
  · intro postUrl
    exact substackProcessPost_eq_nil env postUrl

/-- C1: For every list of registered extractors and every source string
(whose `can_handle` predicates evaluate without raising, as the common
contract requires), `ExtractorManager.extract` returns exactly the record
list of the first-registered extractor whose `can_handle(source)` is true —
no later-registered matching extractor contributes — appends exactly those
records to the run accumulator `items`, and returns `[]` with the
accumulator unchanged when no registered extractor matches. -/
theorem C1_dispatch_first_registered_match (extractors : List Extractor)
    (source : String) (items : List ContentItem)
    (h : ∀ e ∈ extractors, ∃ b, e.canHandle source = .ok b) :
    managerExtract extractors source items =
      .ok
        ((((extractors.find? (fun e =>
            match e.canHandle source with
            | .ok true => true
            | _ => false)).map (fun e => e.extract source)).getD []),
         items ++
          (((extractors.find? (fun e =>
            match e.canHandle source with
            | .ok true => true
            | _ => false)).map (fun e => e.extract source)).getD [])) :=
  managerExtract_first_match extractors source items h

/-- Witness for C1: with two stub extractors that both claim every source,
dispatch runs the first-registered one only. -/
theorem C1_dispatch_first_registered_match_witness :
    managerExtract [stubExtractorA, stubExtractorB] "https://example.com" [] =
      .ok ([stubItemA], [stubItemA]) := by
  have h := C1_dispatch_first_registered_match [stubExtractorA, stubExtractorB]
    "https://example.com" []
    (by intro e he
        fin_cases he <;> exact ⟨true, rfl⟩)
  simpa [stubExtractorA, stubExtractorB] using h

/-- C2 (amended): the dispatcher returns a list — never an exception — for
every source on which each registered extractor's `can_handle` evaluates
without raising; each extractor's own `extract` is total (its body is
wrapped in `try/except`).  The original claim fails because `can_handle`
itself is invoked unguarded and the `urlparse`-based predicates can raise
(see the counterexample). -/
theorem C2_dispatch_returns_list (env : PipelineEnv) (source : String)
    (items : List ContentItem)
    (h : ∀ e ∈ registeredPipeline env, ∃ b, e.canHandle source = .ok b) :
    ∃ r, managerExtract (registeredPipeline env) source items = .ok r :=
  ⟨_, managerExtract_first_match (registeredPipeline env) source items h⟩

/-- Witness for C2 (amended): an unreachable URL (every oracle fails in
`offlinePipelineEnv`) is dispatched without raising. -/
theorem C2_dispatch_returns_list_witness :
    ∃ r, managerExtract (registeredPipeline offlinePipelineEnv)
      "https://unreachable.example.com/post" [] = .ok r := by
  refine C2_dispatch_returns_list offlinePipelineEnv
    "https://unreachable.example.com/post" [] ?_
  intro e he
  fin_cases he
  · exact ⟨true, rfl⟩
  · exact ⟨false, rfl⟩
  · exact ⟨false, rfl⟩
  · exact ⟨false, rfl⟩
  · exact ⟨false, rfl⟩

/-- Counterexample to C2 as stated: on the input `"//["` the generic blog
predicate declines, and `GitHubExtractor.can_handle` calls
`urlparse("//[")`, which raises `ValueError("Invalid IPv6 URL")`; the
dispatcher does not guard `can_handle`, so the exception escapes
`ExtractorManager.extract`. -/
theorem C2_counterexample :
    managerExtract (registeredPipeline offlinePipelineEnv) "//[" [] =
      .error (PyErr.valueError "Invalid IPv6 URL") := rfl

/-- Decoder for the reversed decimal digit list. -/
def pyDecimalDecode : List Nat → Nat
  | [] => 0
  | d :: ds => d + 10 * pyDecimalDecode ds

/-- The digit list of `pyStrNat` decodes back to the number. -/
theorem pyDecimalRevAux_decode :
    ∀ fuel n, n ≤ fuel → pyDecimalDecode (pyDecimalRevAux fuel n) = n := by
  intro fuel
  induction fuel with
  | zero =>
    intro n hn
    interval_cases n
    rfl
  | succ f ih =>
    intro n hn
    cases n with
    | zero => rfl
    | succ m =>
      have hdiv : (m + 1) / 10 ≤ f := by
        have h1 : (m + 1) / 10 < m + 1 := Nat.div_lt_self (Nat.succ_pos m) (by norm_num)
        omega
      show pyDecimalDecode (((m + 1) % 10) :: pyDecimalRevAux f ((m + 1) / 10)) = m + 1
      show ((m + 1) % 10) + 10 * pyDecimalDecode (pyDecimalRevAux f ((m + 1) / 10)) = m + 1
      rw [ih ((m + 1) / 10) hdiv]
      exact Nat.mod_add_div (m + 1) 10

/-- Every entry of the digit list is a digit. -/
theorem pyDecimalRevAux_lt_ten :
    ∀ fuel n d, d ∈ pyDecimalRevAux fuel n → d < 10 := by
  intro fuel
  induction fuel with
  | zero =>
    intro n d hd
    cases n <;> simp [pyDecimalRevAux] at hd
  | succ f ih =>
    intro n d hd
    cases n with
    | zero => simp [pyDecimalRevAux] at hd
    | succ m =>
      simp only [pyDecimalRevAux, List.mem_cons] at hd
      rcases hd with h | h
      · subst h; exact Nat.mod_lt _ (by norm_num)
      · exact ih _ _ h

/-- `Nat.digitChar` is injective on digits. -/
theorem digitCharInjOnDigits :
    ∀ d1 : Nat, d1 < 10 → ∀ d2 : Nat, d2 < 10 →
      Nat.digitChar d1 = Nat.digitChar d2 → d1 = d2 := by decide

/-- Mapping `Nat.digitChar` over digit lists is injective. -/
theorem mapDigitCharInj :
    ∀ l1 l2 : List Nat, (∀ x ∈ l1, x < 10) → (∀ x ∈ l2, x < 10) →
      l1.map Nat.digitChar = l2.map Nat.digitChar → l1 = l2 := by
  intro l1
  induction l1 with
  | nil =>
    intro l2 _ _ h
    cases l2 with
    | nil => rfl
    | cons b bs => simp at h
  | cons a as ih =>
    intro l2 h1 h2 h
    cases l2 with
    | nil => simp at h
    | cons b bs =>
      simp only [List.map_cons, List.cons.injEq] at h
      have ha : a = b :=
        digitCharInjOnDigits a (h1 a (by simp)) b (h2 b (by simp)) h.1
      have has : as = bs :=
        ih bs (fun x hx => h1 x (by simp [hx])) (fun x hx => h2 x (by simp [hx])) h.2
      rw [ha, has]

/-- Decode a decimal string back to its value (left inverse of
`pyStrNat` on its range). -/
def pyStrNatVal (s : String) : Nat :=
  pyDecimalDecode ((s.data.map (fun c => c.toNat - 48)).reverse)

/-- `Nat.digitChar` is inverted by `toNat - 48` on digits. -/
theorem digitValDigitChar : ∀ d : Nat, d < 10 → (Nat.digitChar d).toNat - 48 = d := by
  decide

/-- `pyStrNatVal` recovers the rendered number. -/
theorem pyStrNatVal_pyStrNat (n : Nat) : pyStrNatVal (pyStrNat n) = n := by
  by_cases hn : n = 0
  · subst hn; rfl
  · unfold pyStrNat
    rw [if_neg hn]
    unfold pyStrNatVal
    have hdata : (((pyDecimalRevAux n n).reverse.map Nat.digitChar).asString).data
        = (pyDecimalRevAux n n).reverse.map Nat.digitChar := rfl
    rw [hdata, List.map_map]
    have hid : ((pyDecimalRevAux n n).reverse.map
        ((fun c => c.toNat - 48) ∘ Nat.digitChar)) = (pyDecimalRevAux n n).reverse := by
      have hpt : ∀ x ∈ (pyDecimalRevAux n n).reverse,
          ((fun c => c.toNat - 48) ∘ Nat.digitChar) x = id x := by
        intro x hx
        show (Nat.digitChar x).toNat - 48 = x
        exact digitValDigitChar x
          (pyDecimalRevAux_lt_ten n n x (List.mem_reverse.mp hx))
      have := List.map_congr_left hpt
      simpa using this
    rw [hid, List.reverse_reverse]
    exact pyDecimalRevAux_decode n n le_rfl

/-- Python decimal rendering of naturals is injective. -/
theorem pyStrNat_injective {n m : Nat} (h : pyStrNat n = pyStrNat m) : n = m := by
  have := congrArg pyStrNatVal h
  rwa [pyStrNatVal_pyStrNat, pyStrNatVal_pyStrNat] at this

/-- Left-cancellation of string append. -/
theorem stringAppendLeftCancel {a b c : String} (h : a ++ b = a ++ c) : b = c := by
  have hd : (a ++ b).data = (a ++ c).data := by rw [h]
  rw [String.data_append, String.data_append] at hd
  exact stringDataEq (List.append_cancel_left hd)

/-- The modelled `uuid5` id is injective in its name string. -/
theorem uuid5Injective {a b : String}
    (h : uuid5NamespaceUrl a = uuid5NamespaceUrl b) : a = b :=
  stringAppendLeftCancel h

/-- C4 (amended): record identity is deterministic, and distinctness holds
for the identity keys the code actually uses: `generate_unique_id` is
injective (markdown records, keyed by title), the blog id
`uuid5(url + title)` separates different titles for a fixed source, and the
PDF chapter id `uuid5(f"{source}#{idx}")` separates different part-indices
for a fixed source.  The title does **not** enter the PDF chapter id, so
two chapter records with equal source and part-index but different titles
share an id (see the counterexample). -/
theorem C4_identity_determinism_distinctness :
    (∀ text : String, generate_unique_id text = generate_unique_id text) ∧
    (∀ t1 t2 : String, t1 ≠ t2 →
      generate_unique_id t1 ≠ generate_unique_id t2) ∧
    (∀ url t1 t2 : String, t1 ≠ t2 →
      uuid5NamespaceUrl (url ++ t1) ≠ uuid5NamespaceUrl (url ++ t2)) ∧
    (∀ key : String, ∀ i j : Nat, i ≠ j →
      uuid5NamespaceUrl (key ++ "#" ++ pyStrNat i) ≠
        uuid5NamespaceUrl (key ++ "#" ++ pyStrNat j)) := by
  refine ⟨fun _ => rfl, ?_, ?_, ?_⟩
  · intro t1 t2 hne h
    exact hne (uuid5Injective h)
  · intro url t1 t2 hne h
    exact hne (stringAppendLeftCancel (uuid5Injective h))
  · intro key i j hne h
    exact hne (pyStrNat_injective (stringAppendLeftCancel (uuid5Injective h)))

/-- Witness for C4 (amended): distinct titles and distinct chapter indices
at concrete inputs give distinct ids. -/
theorem C4_identity_determinism_distinctness_witness :
    generate_unique_id "Chapter One" ≠ generate_unique_id "Chapter Two" ∧
    uuid5NamespaceUrl ("https://blog.example/p" ++ "A") ≠
      uuid5NamespaceUrl ("https://blog.example/p" ++ "B") ∧
    uuid5NamespaceUrl ("https://x.example/d.pdf" ++ "#" ++ pyStrNat 0) ≠
      uuid5NamespaceUrl ("https://x.example/d.pdf" ++ "#" ++ pyStrNat 1) :=
  ⟨C4_identity_determinism_distinctness.2.1 "Chapter One" "Chapter Two"
      (by decide),
   C4_identity_determinism_distinctness.2.2.1 "https://blog.example/p" "A" "B"
      (by decide),
   C4_identity_determinism_distinctness.2.2.2 "https://x.example/d.pdf" 0 1
      (by decide)⟩

/-- Counterexample to C4 as stated: two PDF chapter records with the same
source and the same part-index but different extracted chapter titles
receive the same id — the chapter title does not enter the PDF chapter
id. -/
theorem C4_counterexample :
    ((pdfChapterItems "https://x.example/d.pdf" "Doc"
        (some "https://x.example/d.pdf") "/tmp/d.pdf" false 0 1
        [("Chapter 1: Alpha", "body")] 0).map ContentItem.title ≠
      (pdfChapterItems "https://x.example/d.pdf" "Doc"
        (some "https://x.example/d.pdf") "/tmp/d.pdf" false 0 1
        [("Chapter 1: Beta", "body")] 0).map ContentItem.title) ∧
    ((pdfChapterItems "https://x.example/d.pdf" "Doc"
        (some "https://x.example/d.pdf") "/tmp/d.pdf" false 0 1
        [("Chapter 1: Alpha", "body")] 0).map ContentItem.content_id =
      (pdfChapterItems "https://x.example/d.pdf" "Doc"
        (some "https://x.example/d.pdf") "/tmp/d.pdf" false 0 1
        [("Chapter 1: Beta", "body")] 0).map ContentItem.content_id) := by
  exact ⟨by decide, rfl⟩

/-- C5 (amended): `GenericBlogExtractor._process_page` performs no
minimum-content-length check: it always emits exactly one record carrying
the converted markdown, whatever its length (rejection-by-length exists
only in the Substack extractor, not the generic blog path). -/
theorem C5_blog_no_length_rejection (url : String) (doc : BlogDoc) :
    (blogProcessPage url doc).map ContentItem.content =
      [blogHtmlToMarkdown doc doc.mainContentHtml] := by
  simp [blogProcessPage]

/-- A fetched page whose converted markdown is a single character. -/
def shortBlogDoc : BlogDoc :=
  { titleString := some "Post"
    h1Text := none
    headerHText := none
    mainContentHtml := "<p>x</p>"
    htmlToMd := fun _ => "x"
    dateSoup := emptyDateSoup
    authorResult := none
    extractionTimestamp := "2024-01-01 00:00:00" }

/-- Counterexample to C5 as stated: a page whose markdown is one character
(far below any minimum-content threshold; the spec's example threshold is
100) is emitted as a record rather than dropped. -/
theorem C5_counterexample :
    (blogExtract (fun u => if u = "https://blog.example/post" then
        some shortBlogDoc else none) "https://blog.example/post").map
      ContentItem.content = ["x"] ∧ ("x").length < 100 := by
  exact ⟨rfl, by decide⟩

/-- C9: the listing-vs-single classification uses strict greater-than
thresholds: exactly 3 article-like elements and exactly 10 matching links
classify as a single article; 4 elements, or 11 links, flip to a listing
page that is expanded into its extracted article links. -/
theorem C9_listing_thresholds :
    genericBlogRoute 3 10 ["https://b.example/post/1"] "https://b.example" =
      .singleArticle "https://b.example" ∧
    genericBlogRoute 4 10 ["https://b.example/post/1"] "https://b.example" =
      .listing ["https://b.example/post/1"] ∧
    genericBlogRoute 3 11 ["https://b.example/post/1"] "https://b.example" =
      .listing ["https://b.example/post/1"] ∧
    (∀ articleCount linkCount : Nat, articleCount ≤ 3 → linkCount ≤ 10 →
      isListingPage articleCount linkCount = false) := by
  refine ⟨rfl, rfl, rfl, ?_⟩
  intro a l ha hl
  simp [isListingPage]
  omega

/-- Witness for C9: the boundary facts at a further concrete point. -/
theorem C9_listing_thresholds_witness : isListingPage 2 5 = false :=
  C9_listing_thresholds.2.2.2 2 5 (by decide) (by decide)

/-- C7 (amended): both date extractors return the first match of a fixed
priority cascade and never merge signals, but the actual orders are:
`utils.extract_date_published`: `<time>` (datetime attr, else text) →
meta tags whose name/property contains `publish`/`date` → date-class
selectors (datetime preferred) → JSON-LD `datePublished` →
`meta property="article:published_time"` → absent;
`GenericBlogExtractor._extract_date_published`: `<time>` → date-class
selectors → three specific meta properties → absent.  (The claimed order
put the class selectors ahead of the meta tags for the utils function; the
code consults meta tags first — see the counterexample.) -/
theorem C7_date_priority_order (soup : DateSoup) :
    extract_date_published soup =
      ((timeTagDate soup).orElse (fun _ =>
        (metaPublishDate soup.metas).orElse (fun _ =>
          (selectorDate soup utilsDateSelectors).orElse (fun _ =>
            (jsonLdDate soup.jsonLd).orElse (fun _ =>
              metaArticlePublishedTime soup.metas))))) ∧
    blogExtractDatePublished soup =
      ((timeTagDate soup).orElse (fun _ =>
        (selectorDate soup blogDateSelectors).orElse (fun _ =>
          blogMetaDate soup.metas
            ["article:published_time", "published_time", "publication_date"]))) := by
  constructor
  · unfold extract_date_published
    cases timeTagDate soup <;>
      cases metaPublishDate soup.metas <;>
        cases selectorDate soup utilsDateSelectors <;>
          cases jsonLdDate soup.jsonLd <;>
            simp [Option.orElse]
  · unfold blogExtractDatePublished
    cases timeTagDate soup <;>
      cases selectorDate soup blogDateSelectors <;>
        simp [Option.orElse]

/-- A page with no `<time>` tag, one `article:published_time` meta tag and
one `.published` element: the claimed order would return the selector hit,
the code returns the meta content. -/
def metaSelectorSoup : DateSoup :=
  { timeTag := none
    metas := [{ property := "article:published_time", name := "",
                content := some "2020-01-01" }]
    selectOne := fun sel =>
      if sel = ".published" then
        some { datetime := none, text := "January 2, 2021" }
      else none
    jsonLd := [] }

/-- Counterexample to C7 as stated: `utils.extract_date_published` consults
the meta tags *before* the date-class selectors, so with both signals
present the meta value wins, not the selector value the claimed priority
demands (the spec-order function is shown alongside for contrast). -/
theorem C7_counterexample :
    extract_date_published metaSelectorSoup = some "2020-01-01" ∧
    specDateResolution metaSelectorSoup = some "January 2, 2021" ∧
    metaSelectorSoup.selectOne ".published" =
      some { datetime := none, text := "January 2, 2021" } ∧
    ("2020-01-01" : String) ≠ "January 2, 2021" := by
  refine ⟨rfl, rfl, rfl, by decide⟩

/-- C8: a downloaded byte stream that does not start with `%PDF-` never
reaches the text-extraction stage: `_is_valid_pdf` fails, the temporary
file is removed, `extract` returns `[]`, and the failure reason
distinguishes an HTML payload (`<html`/`<!doctype` in the lowered first 100
bytes) from every other invalid-PDF cause. -/
theorem C8_pdf_validity_gate (env : PdfEnv) (url fid : String)
    (bytes : List Nat)
    (hdrive : pyIn "drive.google.com" (pyLower url) = true)
    (hfid : extractGoogleDriveFileId url = some fid)
    (hdl : env.gdown1 fid = some bytes)
    (hne : bytes.length > 0)
    (hmagic : ¬ (pdfMagic <+: bytes.take 8)) :
    pdfExtract env 0 url = ([], false) ∧
    downloadFromGoogleDrive env url =
      .error (driveInvalidReason bytes, true) ∧
    (∀ b : List Nat,
      driveInvalidReason b = DriveFailure.invalidHtmlPage ∨
      driveInvalidReason b = DriveFailure.invalidOther) ∧
    DriveFailure.invalidHtmlPage ≠ DriveFailure.invalidOther := by
  have hvalid : isValidPdf bytes (env.parse bytes) = false := by
    unfold isValidPdf
    by_cases hlen : bytes.length < 100
    · simp [hlen]
    · simp [hlen, hmagic]
  have hdown : downloadFromGoogleDrive env url =
      .error (driveInvalidReason bytes, true) := by
    unfold downloadFromGoogleDrive
    rw [hfid]
    simp only [hdl]
    rw [if_pos hne]
    simp [hvalid]
  refine ⟨?_, hdown, ?_, by decide⟩
  · unfold pdfExtract
    rw [if_pos hdrive, hdown]
  · intro b
    unfold driveInvalidReason
    simp only []
    split
    · exact Or.inl rfl
    · exact Or.inr rfl

/-- The six bytes of `"<html>"`. -/
def htmlPayloadBytes : List Nat := [60, 104, 116, 109, 108, 62]

/-- A drive environment whose download yields an HTML access page. -/
def htmlDrivePdfEnv : PdfEnv :=
  { gdown1 := fun fid => if fid = "abc123" then some htmlPayloadBytes else none
    gdown2 := fun _ => none
    parse := fun _ => none
    pathExists := fun _ => false
    localBytes := fun _ => []
    tempPath := "/tmp/gdrive_pdf_0a1b2c3d.pdf"
    identifyChapters := fun _ => [] }

/-- Witness for C8: a Google Drive URL that downloads an HTML page is
rejected with the HTML-specific reason and extraction never runs. -/
theorem C8_pdf_validity_gate_witness :
    pdfExtract htmlDrivePdfEnv 0
      "https://drive.google.com/file/d/abc123/view" = ([], false) ∧
    downloadFromGoogleDrive htmlDrivePdfEnv
      "https://drive.google.com/file/d/abc123/view" =
      .error (DriveFailure.invalidHtmlPage, true) ∧
    DriveFailure.invalidHtmlPage ≠ DriveFailure.invalidOther := by
  have h := C8_pdf_validity_gate htmlDrivePdfEnv
    "https://drive.google.com/file/d/abc123/view" "abc123" htmlPayloadBytes
    (by decide) (by decide) (by decide) (by decide) (by decide)
  refine ⟨h.1, ?_, h.2.2.2⟩
  rw [h.2.1]
  rfl

/-- `dropWhile` is the identity when no element satisfies the predicate. -/
theorem dropWhileEqSelf {p : Char → Bool} {l : List Char}
    (h : ∀ c ∈ l, p c = false) : l.dropWhile p = l := by
  cases l with
  | nil => rfl
  | cons a t => simp [List.dropWhile_cons, h a (by simp)]

/-- The WHATWG strip is the identity on strings without control characters
or spaces at either end (here: anywhere). -/
theorem stripC0EqSelf {l : List Char} (h : ∀ c ∈ l, 32 < c.toNat) :
    stripC0 l = l := by
  unfold stripC0
  have h1 : l.dropWhile (fun c => decide (c.toNat ≤ 32)) = l :=
    dropWhileEqSelf (fun c hc => by simpa using Nat.not_le.mpr (h c hc))
  rw [h1]
  have h2 : l.reverse.dropWhile (fun c => decide (c.toNat ≤ 32)) = l.reverse :=
    dropWhileEqSelf (fun c hc => by
      simpa using Nat.not_le.mpr (h c (List.mem_reverse.mp hc)))
  rw [h2, List.reverse_reverse]

/-- Tab/CR/LF removal is the identity on strings whose characters all have
code points above 32. -/
theorem removeUnsafeEqSelf {l : List Char} (h : ∀ c ∈ l, 32 < c.toNat) :
    removeUnsafeBytes l = l := by
  unfold removeUnsafeBytes
  apply List.filter_eq_self.mpr
  intro a ha
  have hgt := h a ha
  apply decide_eq_true
  intro hor
  rcases hor with h1 | h1 | h1 <;> (subst h1; exact absurd hgt (by decide))

/-- The remainder returned by scheme splitting is a suffix of its input. -/
theorem splitScheme_snd_suffix (l : List Char) : (splitScheme l).2 <:+ l := by
  unfold splitScheme
  split <;>
    first
      | exact List.suffix_refl _
      | (split <;>
          first
            | exact List.drop_suffix _ _
            | exact List.suffix_refl _)

/-- An infix survives `List.map`. -/
theorem infixMap {l₁ l₂ : List Char} (f : Char → Char) (h : l₁ <:+: l₂) :
    l₁.map f <:+: l₂.map f := by
  obtain ⟨s, t, rfl⟩ := h
  exact ⟨s.map f, t.map f, by simp⟩

/-- The netloc produced by `urlparse` is a contiguous substring of the
cleaned URL. -/
theorem urlparse_netloc_infix {s : String} {parts : UrlParts}
    (h : urlparse s = .ok parts) :
    parts.netloc.data <:+: cleanUrl s := by
  unfold urlparse at h
  split at h
  · split at h
    · cases h
    · injection h with h'
      rw [← h']
      show netlocChars (cleanUrl s) <:+: cleanUrl s
      have h1 : netlocChars (cleanUrl s) <+: (schemeRest (cleanUrl s)).drop 2 :=
        List.takeWhile_prefix _
      have h2 : (schemeRest (cleanUrl s)).drop 2 <:+ schemeRest (cleanUrl s) :=
        List.drop_suffix _ _
      have h3 : schemeRest (cleanUrl s) <:+ cleanUrl s :=
        splitScheme_snd_suffix (cleanUrl s)
      exact h1.isInfix.trans (h2.trans h3).isInfix
  · injection h with h'
    rw [← h']
    exact List.nil_infix

/-- A true generic-blog predicate certifies all five exclusions. -/
theorem genericBlogCanHandleParts {source : String}
    (h : genericBlogCanHandle source = true) :
    pyIn "substack.com" (pyLower source) = false ∧
    pyIn "drive.google.com" (pyLower source) = false ∧
    pyIn "github.com" (pyLower source) = false ∧
    pyEndsWith (pyLower source) ".pdf" = false ∧
    pyEndsWith (pyLower source) ".md" = false := by
  unfold genericBlogCanHandle at h
  simp only [Bool.and_eq_true, Bool.not_eq_true', Bool.or_eq_false_iff] at h
  obtain ⟨-, ⟨⟨⟨ha, hb⟩, hc⟩, hd⟩, he⟩ := h
  exact ⟨ha, hb, hc, hd, he⟩

/-- C6 (amended): when the generic blog matcher claims a source (over
sources without control characters, which URL parsing would otherwise
rewrite), the Substack, PDF and GitHub matchers all decline it.  The
original claim fails for the Markdown matcher: it tests the *URL path*
while the generic matcher tests the *whole source string*, so a remote
`.md` path followed by a query string is claimed by both (see the
counterexample). -/
theorem C6_generic_specific_exclusivity (source : String)
    (hclean : ∀ c ∈ source.data, 32 < c.toNat)
    (hgen : genericBlogCanHandle source = true) :
    substackCanHandle source = false ∧
    pdfCanHandle source = false ∧
    githubCanHandle source ≠ .ok true := by
  obtain ⟨hsub, hdrive, hgh, hpdf, hmd⟩ := genericBlogCanHandleParts hgen
  refine ⟨hsub, ?_, ?_⟩
  · unfold pdfCanHandle
    simp [hpdf, hdrive]
  · intro hok
    unfold githubCanHandle at hok
    cases hu : urlparse source with
    | error e => rw [hu] at hok; cases hok
    | ok parts =>
      rw [hu] at hok
      injection hok with hb
      have hand := (Bool.and_eq_true _ _).mp hb
      have hnet : parts.netloc = "github.com" ∨ parts.netloc = "www.github.com" :=
        of_decide_eq_true hand.1
      have hinfix : parts.netloc.data <:+: cleanUrl source :=
        urlparse_netloc_infix hu
      have hcleanid : cleanUrl source = source.data := by
        unfold cleanUrl
        rw [stripC0EqSelf hclean, removeUnsafeEqSelf hclean]
      rw [hcleanid] at hinfix
      have hgsub : "github.com".data <:+: source.data := by
        rcases hnet with h | h
        · rw [h] at hinfix; exact hinfix
        · rw [h] at hinfix
          exact List.IsInfix.trans (by decide) hinfix
      have hlow : "github.com".data <:+: (pyLower source).data := by
        have hm := infixMap pyCharLower hgsub
        have hfix : "github.com".data.map pyCharLower = "github.com".data := by
          decide
        rw [hfix] at hm
        exact hm
      have htrue : pyIn "github.com" (pyLower source) = true := decide_eq_true hlow
      rw [htrue] at hgh
      cases hgh

/-- Witness for C6 (amended): a plain blog URL claimed by the generic
matcher is declined by Substack, PDF and GitHub. -/
theorem C6_generic_specific_exclusivity_witness :
    substackCanHandle "https://myblog.example.com/post/1" = false ∧
    pdfCanHandle "https://myblog.example.com/post/1" = false ∧
    githubCanHandle "https://myblog.example.com/post/1" ≠ .ok true :=
  C6_generic_specific_exclusivity "https://myblog.example.com/post/1"
    (by decide) (by decide)

/-- Counterexample to C6 as stated: a remote markdown URL with a query
string is claimed by the generic blog matcher (the whole source does not
end in `.md`) *and* by the markdown matcher (the URL path does end in
`.md`): the predicates are not mutually exclusive. -/
theorem C6_counterexample :
    genericBlogCanHandle "https://docs.example.com/guide.md?raw=true" = true ∧
    markdownCanHandle (fun _ => false)
      "https://docs.example.com/guide.md?raw=true" = .ok true :=
  ⟨by decide, rfl⟩

/-- An element that fails the predicate survives `dropWhile`. -/
theorem memDropWhile {p : Char → Bool} {x : Char} :
    ∀ {l : List Char}, x ∈ l → p x = false → x ∈ l.dropWhile p := by
  intro l
  induction l with
  | nil => intro h _; cases h
  | cons a t ih =>
    intro hmem hpx
    rw [List.dropWhile_cons]
    by_cases hpa : p a = true
    · rw [if_pos hpa]
      rcases List.mem_cons.mp hmem with h | h
      · rw [h] at hpx; rw [hpx] at hpa; exact Bool.noConfusion hpa
      · exact ih h hpx
    · rw [if_neg hpa]
      exact hmem

/-- A string containing a non-whitespace character strips to a non-empty
string. -/
theorem pyStripNeEmpty {s : String} {x : Char} (hx : x ∈ s.data)
    (hsp : pyIsSpace x = false) : pyStrip s ≠ "" := by
  intro hcontra
  have hdata : (pyStrip s).data = [] := by rw [hcontra]
  have h1 : x ∈ s.data.dropWhile pyIsSpace := memDropWhile hx hsp
  have h2 : x ∈ (s.data.dropWhile pyIsSpace).reverse := List.mem_reverse.mpr h1
  have h3 : x ∈ (s.data.dropWhile pyIsSpace).reverse.dropWhile pyIsSpace :=
    memDropWhile h2 hsp
  have h4 : x ∈ ((s.data.dropWhile pyIsSpace).reverse.dropWhile
      pyIsSpace).reverse := List.mem_reverse.mpr h3
  have h5 : (pyStrip s).data = ((s.data.dropWhile pyIsSpace).reverse.dropWhile
      pyIsSpace).reverse := rfl
  rw [h5] at hdata
  rw [hdata] at h4
  cases h4

/-- The head of a non-empty `dropWhile` result fails the predicate. -/
theorem dropWhileHeadFalse {p : Char → Bool} :
    ∀ {l : List Char} {c : Char} {t : List Char},
      l.dropWhile p = c :: t → p c = false := by
  intro l
  induction l with
  | nil => intro c t h; cases h
  | cons a l' ih =>
    intro c t h
    rw [List.dropWhile_cons] at h
    by_cases hpa : p a = true
    · rw [if_pos hpa] at h
      exact ih h
    · rw [if_neg hpa] at h
      injection h with h1 h2
      rw [← h1]
      simpa using hpa

/-- The stripped string never ends in whitespace. -/
theorem pyStripLastNotSpace {s : String} {c : Char}
    (h : (pyStrip s).data.getLast? = some c) : pyIsSpace c = false := by
  have h5 : (pyStrip s).data = ((s.data.dropWhile pyIsSpace).reverse.dropWhile
      pyIsSpace).reverse := rfl
  rw [h5, List.getLast?_reverse] at h
  cases hd : (s.data.dropWhile pyIsSpace).reverse.dropWhile pyIsSpace with
  | nil => rw [hd] at h; cases h
  | cons a t =>
    rw [hd] at h
    have hac : a = c := by simpa using h
    rw [← hac]
    exact dropWhileHeadFalse hd

/-- A non-empty string built by `String.mk` from a non-empty list. -/
theorem mkNeEmpty {l : List Char} (h : l ≠ []) : String.mk l ≠ "" := by
  intro hcontra
  exact h (by simpa using congrArg String.data hcontra)

/-- Appending a non-empty string on the right gives a non-empty string. -/
theorem appendNeEmptyRight {a b : String} (hb : b ≠ "") : a ++ b ≠ "" := by
  intro h
  have hd : a.data ++ b.data = [] := by
    have := congrArg String.data h
    rwa [String.data_append] at this
  exact hb (stringDataEq (List.append_eq_nil.mp hd).2)

/-- A title of the form `x ++ " - " ++ y` (PDF chapter, GitHub doc file) is
never empty. -/
theorem dashTitleNeEmpty (x y : String) : x ++ " - " ++ y ≠ "" := by
  intro h
  have hd : (x.data ++ " - ".data) ++ y.data = [] := by
    have := congrArg String.data h
    rwa [String.data_append, String.data_append] at this
  have := (List.append_eq_nil.mp (List.append_eq_nil.mp hd).1).2
  simp at this

/-- `_extract_title_from_content` never returns an empty title: the `# `
branch strips the rest of an already-stripped line whose last character is
not whitespace, and the other branch requires a non-empty line. -/
theorem extractTitleFromContentNeEmpty {content t : String}
    (h : extractTitleFromContent content = some t) : t ≠ "" := by
  unfold extractTitleFromContent at h
  obtain ⟨a, ha, hfa⟩ := List.exists_of_findSome?_eq_some h
  simp only [] at hfa
  split at hfa
  · -- "# " heading branch
    rename_i hsw
    injection hfa with hfa'
    obtain ⟨r, hr⟩ : ∃ r, ("# ").data ++ r = (pyStrip a).data := by
      simpa [pyStartsWith] using hsw
    cases hrc : r with
    | nil =>
      rw [hrc] at hr
      have hlast : (pyStrip a).data.getLast? = some ' ' := by
        rw [← hr]; rfl
      have := pyStripLastNotSpace hlast
      simp [pyIsSpace] at this
    | cons c r' =>
      subst hrc
      have hlast2 : (pyStrip a).data.getLast? = (c :: r').getLast? := by
        rw [← hr]
        show ('#' :: ' ' :: c :: r').getLast? = (c :: r').getLast?
        simp
      have hrne : (c :: r') ≠ ([] : List Char) := by simp
      have hylast : (c :: r').getLast? = some ((c :: r').getLast hrne) :=
        List.getLast?_eq_getLast _ hrne
      have hy : (c :: r').getLast hrne ∈ (c :: r') := List.getLast_mem hrne
      have hnospace : pyIsSpace ((c :: r').getLast hrne) = false :=
        pyStripLastNotSpace (by rw [hlast2, hylast])
      have hdrop : (pyStrip a).data.drop 2 = c :: r' := by
        rw [← hr]; rfl
      rw [← hfa', hdrop]
      exact pyStripNeEmpty hy hnospace
  · split at hfa
    · -- first plain line branch
      rename_i hplain
      injection hfa with hfa'
      rw [← hfa']
      exact hplain.1
    · cases hfa

/-- `_extract_pdf_title` never returns an empty title. -/
theorem extractPdfTitleNeEmpty {d : PdfData} {t : String}
    (h : extractPdfTitle d = some t) : t ≠ "" := by
  have hfsl : ∀ u : String, firstShortLine d.pages = some u → u ≠ "" := by
    intro u hu
    unfold firstShortLine at hu
    cases hp : d.pages with
    | nil => rw [hp] at hu; cases hu
    | cons p rest =>
      rw [hp] at hu
      obtain ⟨a, _, hfa⟩ := List.exists_of_findSome?_eq_some hu
      simp only [] at hfa
      split at hfa
      · rename_i hcond
        injection hfa with hfa'
        rw [← hfa']
        exact hcond.1
      · cases hfa
  unfold extractPdfTitle at h
  cases hm : d.metaTitle with
  | none =>
    rw [hm] at h
    simp only [] at h
    exact hfsl t h
  | some m =>
    rw [hm] at h
    simp only [] at h
    split at h
    · rename_i hne
      injection h with h'
      rw [← h']
      exact hne
    · exact hfsl t h

/-- Every PDF chapter record's title is non-empty (it embeds `" - "`). -/
theorem pdfChapterItemsTitleNe (key docTitle : String)
    (sourceUrl : Option String) (pdfPath : String) (useLocalPath : Bool)
    (maxChapters total : Nat) :
    ∀ chs : List (String × String), ∀ idx : Nat,
      ∀ item ∈ pdfChapterItems key docTitle sourceUrl pdfPath useLocalPath
        maxChapters total chs idx, item.title ≠ "" := by
  intro chs
  induction chs with
  | nil => intro idx item hmem; cases hmem
  | cons ch rest ih =>
    intro idx item hmem
    obtain ⟨chapTitle, chapContent⟩ := ch
    unfold pdfChapterItems at hmem
    simp only [] at hmem
    split at hmem
    · rcases List.mem_singleton.mp hmem with rfl
      exact dashTitleNeEmpty docTitle chapTitle
    · rcases List.mem_cons.mp hmem with rfl | hmem'
      · exact dashTitleNeEmpty docTitle chapTitle
      · exact ih (idx + 1) item hmem'

/-- Every record of the GitHub per-directory loop has a non-empty title. -/
theorem githubDirItemsTitleNe (owner repo : String) (exts : List String)
    (maxFiles : Nat) :
    ∀ files : List GhFile, ∀ count : Nat,
      ∀ item ∈ githubDirItems owner repo exts maxFiles files count,
        item.title ≠ "" := by
  intro files
  induction files with
  | nil => intro count item hmem; cases hmem
  | cons f rest ih =>
    intro count item hmem
    unfold githubDirItems at hmem
    split at hmem
    · exact ih count item hmem
    · split at hmem
      · exact ih count item hmem
      · split at hmem
        · cases hmem
        · split at hmem
          · cases hmem
          · exact ih count item hmem
          · rename_i xv contentV heqV
            rcases List.mem_cons.mp hmem with rfl | hmem'
            · show ((extractTitleFromContent contentV).getD
                (repo ++ " - " ++ f.name)) ≠ ""
              cases hopt : extractTitleFromContent contentV with
              | some u =>
                simp only [hopt, Option.getD_some]
                exact extractTitleFromContentNeEmpty hopt
              | none =>
                simp only [hopt, Option.getD_none]
                exact dashTitleNeEmpty repo f.name
            · exact ih (count + 1) item hmem'

/-- Every README or documentation record emitted for `(owner, repo)` has a
non-empty title. -/
theorem githubOwnerRepoTitleNe (env : GitHubEnv) (exts : List String)
    (maxFiles : Nat) (owner repo : String) :
    ∀ item ∈ githubExtractReadme env owner repo ++
      githubExtractDocs env owner repo exts maxFiles, item.title ≠ "" := by
  intro item hmem
  rcases List.mem_append.mp hmem with hr | hd
  · unfold githubExtractReadme at hr
    cases hrm : env.readme owner repo with
    | none => rw [hrm] at hr; cases hr
    | some pr =>
      obtain ⟨content, fileName⟩ := pr
      rw [hrm] at hr
      rcases List.mem_singleton.mp hr with rfl
      show ((extractTitleFromContent content).getD (repo ++ " README")) ≠ ""
      cases hopt : extractTitleFromContent content with
      | some u =>
        simp only [hopt, Option.getD_some]
        exact extractTitleFromContentNeEmpty hopt
      | none =>
        simp only [hopt, Option.getD_none]
        exact appendNeEmptyRight (by decide)
  · unfold githubExtractDocs at hd
    rw [List.mem_flatten] at hd
    obtain ⟨sub, hsub, hitem⟩ := hd
    rw [List.mem_map] at hsub
    obtain ⟨dir, -, hdir⟩ := hsub
    cases hdd : env.docDir owner repo dir with
    | none => rw [hdd] at hdir; rw [← hdir] at hitem; cases hitem
    | some files =>
      rw [hdd] at hdir
      rw [← hdir] at hitem
      exact githubDirItemsTitleNe owner repo exts maxFiles files 0 item hitem

/-- Every record `GitHubExtractor.extract` emits has a non-empty title. -/
theorem githubExtractTitleNe (env : GitHubEnv) (exts : List String)
    (maxFiles : Nat) (url : String) :
    ∀ item ∈ githubExtract env exts maxFiles url, item.title ≠ "" := by
  intro item hmem
  unfold githubExtract at hmem
  cases hu : urlparse url with
  | error e => rw [hu] at hmem; cases hmem
  | ok parsed =>
    rw [hu] at hmem
    simp only [] at hmem
    split at hmem
    · cases hmem
    · exact githubOwnerRepoTitleNe env exts maxFiles _ _ item hmem

/-- The stem of a non-empty path name is non-empty. -/
theorem pathStemNeEmpty {source : String} (h : pathName source ≠ "") :
    pathStem source ≠ "" := by
  unfold pathStem
  cases hf : (pathName source).data.reverse.findIdx? (· = '.') with
  | none => exact h
  | some rj =>
    show (if 0 < (pathName source).length - 1 - rj ∧
        (pathName source).length - 1 - rj < (pathName source).length - 1 then
        String.mk ((pathName source).data.take
          ((pathName source).length - 1 - rj))
      else pathName source) ≠ ""
    split
    · rename_i hcond
      apply mkNeEmpty
      rw [Ne, List.take_eq_nil_iff]
      push_neg
      refine ⟨by omega, ?_⟩
      intro hnil
      exact h (stringDataEq hnil)
    · exact h

/-- C10 (amended): every record emitted by the blog, Substack, GitHub and
PDF extractors has a non-empty title (the PDF whole-document fallback is
the file's basename, non-empty for every real `.pdf` path); a markdown
record's title is empty only when a title pattern matched whitespace-only
heading text, in which case the stripped match is returned with no fallback
(see the counterexample) — otherwise the filename-stem fallback of a local
markdown file is non-empty. -/
theorem C10_title_nonempty :
    (∀ url doc, ∀ item ∈ blogProcessPage url doc, item.title ≠ "") ∧
    (∀ env url, ∀ item ∈ substackExtract env url, item.title ≠ "") ∧
    (∀ env exts maxFiles url, ∀ item ∈ githubExtract env exts maxFiles url,
      item.title ≠ "") ∧
    (∀ env maxChapters bytes pdfPath sourceUrl,
      pyBasename pdfPath ≠ "" →
      ∀ item ∈ extractFromPdf env maxChapters bytes pdfPath sourceUrl,
        item.title ≠ "") ∧
    (∀ env source, env.isfile source = true → pathName source ≠ "" →
      ∀ item ∈ markdownExtract env source, item.title = "" →
      ∃ content m, markdownLoadContent env source = some content ∧
        (mdHeadingMatch (pySplit content '\n' ) = some m ∨
         mdUnderlineMatch (pySplit content '\n' ) = some m) ∧
        pyStrip m = "") := by
  refine ⟨?_, ?_, ?_, ?_, ?_⟩
  · -- blog
    intro url doc item hmem
    unfold blogProcessPage at hmem
    simp only [] at hmem
    rcases List.mem_singleton.mp hmem with rfl
    show (if blogExtractTitle doc = "" then "Untitled Article"
      else blogExtractTitle doc) ≠ ""
    split
    · decide
    · rename_i hne; exact hne
  · -- substack (vacuous: nothing is ever emitted)
    intro env url item hmem
    have hnil : substackExtract env url = [] := by
      unfold substackExtract
      cases env.fetchMain url with
      | none => rfl
      | some mainDoc =>
        simp only []
        cases henv : env.postLinks (substackArchiveLink url
            mainDoc.archiveHref) with
        | nil => rfl
        | cons a b =>
          simpa using substackPostLoop_eq_nil env mainDoc.mainAuthor (a :: b)
    rw [hnil] at hmem
    cases hmem
  · -- github
    intro env exts maxFiles url item hmem
    exact githubExtractTitleNe env exts maxFiles url item hmem
  · -- pdf
    intro env maxChapters bytes pdfPath sourceUrl hbase item hmem
    unfold extractFromPdf at hmem
    cases hp : env.parse bytes with
    | none => rw [hp] at hmem; cases hmem
    | some d =>
      rw [hp] at hmem
      simp only [] at hmem
      cases hch : env.identifyChapters (pdfFullText d.pages) with
      | nil =>
        rw [hch] at hmem
        simp only [] at hmem
        rcases List.mem_singleton.mp hmem with rfl
        show ((extractPdfTitle d).getD (pyBasename pdfPath)) ≠ ""
        cases hopt : extractPdfTitle d with
        | some u =>
          simp only [hopt, Option.getD_some]
          exact extractPdfTitleNeEmpty hopt
        | none =>
          simp only [hopt, Option.getD_none]
          exact hbase
      | cons c rest =>
        rw [hch] at hmem
        simp only [] at hmem
        exact pdfChapterItemsTitleNe _ _ _ _ _ _ _ (c :: rest) 0 item hmem
  · -- markdown
    intro env source hfile hname item hmem htitle
    unfold markdownExtract at hmem
    cases hload : markdownLoadContent env source with
    | none => rw [hload] at hmem; cases hmem
    | some content =>
      rw [hload] at hmem
      simp only [] at hmem
      cases hT : markdownExtractTitle env.isfile content source with
      | error e => rw [hT] at hmem; simp only [] at hmem; cases hmem
      | ok title =>
        rw [hT] at hmem
        simp only [] at hmem
        rcases List.mem_singleton.mp hmem with rfl
        unfold markdownExtractTitle at hT
        cases hH : mdHeadingMatch (pySplit content '\n' ) with
        | some m =>
          rw [hH] at hT
          simp only [] at hT
          injection hT with hT'
          refine ⟨content, m, rfl, Or.inl hH, ?_⟩
          rw [hT']
          exact htitle
        | none =>
          rw [hH] at hT
          simp only [] at hT
          cases hU : mdUnderlineMatch (pySplit content '\n' ) with
          | some m =>
            rw [hU] at hT
            simp only [] at hT
            injection hT with hT'
            refine ⟨content, m, rfl, Or.inr hU, ?_⟩
            rw [hT']
            exact htitle
          | none =>
            rw [hU] at hT
            simp only [hfile, if_true] at hT
            injection hT with hT'
            rw [← hT'] at htitle
            exact absurd htitle (pathStemNeEmpty hname)

/-- A PDF environment that parses any byte stream into a one-page document
titled from metadata. -/
def samplePdfEnv : PdfEnv :=
  { gdown1 := fun _ => none
    gdown2 := fun _ => none
    parse := fun _ => some { pages := ["Intro\nBody"], metaTitle := some "Doc" }
    pathExists := fun _ => true
    localBytes := fun _ => []
    tempPath := "/tmp/gdrive_pdf_0a1b2c3d.pdf"
    identifyChapters := fun _ => [] }

/-- Witness for C10 (amended): concrete blog and PDF extractions emit no
empty-titled record. -/
theorem C10_title_nonempty_witness :
    ¬ ("" ∈ (blogProcessPage "https://blog.example/post" shortBlogDoc).map
        ContentItem.title) ∧
    ¬ ("" ∈ (extractFromPdf samplePdfEnv 0 [] "/tmp/doc.pdf"
        (some "https://x.example/doc.pdf")).map ContentItem.title) := by
  constructor
  · intro h
    obtain ⟨item, hmem, htitle⟩ := List.mem_map.mp h
    exact C10_title_nonempty.1 "https://blog.example/post" shortBlogDoc
      item hmem htitle
  · intro h
    obtain ⟨item, hmem, htitle⟩ := List.mem_map.mp h
    exact C10_title_nonempty.2.2.2.1 samplePdfEnv 0 [] "/tmp/doc.pdf"
      (some "https://x.example/doc.pdf") (by decide) item hmem htitle

/-- A filesystem with one markdown file whose first line is `"#  "` (hash,
space, space): the level-1 title pattern captures a whitespace-only
group. -/
def blankHeadingMdEnv : MarkdownEnv :=
  { isfile := fun src => src == "notes.md"
    readFile := fun src =>
      if src == "notes.md" then some "#  \nBody text long enough to matter."
      else none
    httpGet := fun _ => none }

/-- Counterexample to C10 as stated: a markdown file whose level-1 heading
text is whitespace-only produces a record whose title is the empty string —
the stripped whitespace capture is returned with no fallback applied. -/
theorem C10_counterexample :
    (markdownExtract blankHeadingMdEnv "notes.md").map ContentItem.title =
      [""] := by rfl
